import Mathlib

/-!
Shallow embedding of the avidbase-sdk-go client library.

The repository has two variants of the same client:
* the strict variant (`auth.go`, package `avidbase`), embedded in
  namespace `Avidbase`: every operation returns an explicit error;
* the lenient variant (the unnamed source file, package `go_auth`),
  embedded in namespace `GoAuth`: failures collapse to zero values.

Go's package-level mutable variables (`baseUrl`, `accountId`, `apiKey`,
`machineAccessToken`, `userAccessToken`) become an explicit `State`
record threaded through every operation.  The external world (the HTTP
transport, `net/mail` address parsing, `encoding/json` decoding of
response bodies) becomes an `Env` record of functions.  Each operation
returns its Go return values, the new state, and the list of HTTP
requests it issued, in order.  A nil-pointer dereference (`*p` with
`p == nil`) is modelled by an `Option` result: `none` means the Go code
panics at that point, so no value is returned.
-/

/-- A single HTTP request as the client builds it: method, full URL,
the `Access-Token` request header (if set), and the body (if any). -/
structure Request where
  method : String
  url : String
  accessTokenHeader : Option String
  body : Option String
deriving DecidableEq, Repr

/-- An HTTP response as the client observes it: the status code, the
value of `resp.Header.Get "Access-Token"` (`""` when the header is
absent), the body text, and whether reading the body succeeds
(`ioutil.ReadAll`; a mid-stream transport error makes it fail). -/
structure HttpResponse where
  statusCode : Nat
  accessTokenHeader : String
  body : String
  readAllOk : Bool
deriving DecidableEq, Repr

/-- Models `json.Marshal` applied to a `map[string]string` (with the
keys already in Go's sorted marshal order).  In Go this marshal cannot
fail, so it is a total function; its exact output format only matters
as an injective encoding of the key-value list into the request body. -/
def marshalStringMap (kvs : List (String × String)) : String :=
  "\x7b" ++ String.intercalate ","
    (kvs.map fun kv => "\"" ++ kv.1 ++ "\":\"" ++ kv.2 ++ "\"") ++ "\x7d"

/-- Whether the character list `needle` is an initial segment of `hay`. -/
def leadsWith : List Char → List Char → Bool
  | _, [] => true
  | [], _ :: _ => false
  | a :: as, b :: bs => a == b && leadsWith as bs

/-- Whether `needle` occurs contiguously anywhere inside `hay`. -/
def hasSub : List Char → List Char → Bool
  | [], needle => needle.isEmpty
  | h :: t, needle => leadsWith (h :: t) needle || hasSub t needle

/-- Whether the string `needle` occurs as a substring of `hay`. -/
def strContains (hay needle : String) : Bool :=
  hasSub hay.toList needle.toList

namespace Avidbase

/-- `Identity` record of the strict variant.  The Go `Data` field is
`map[string]interface{}`; its values are opaque to the client, modelled
here as strings. -/
structure Identity where
  id : String
  firstName : String
  lastName : String
  username : String
  email : String
  country : String
  data : List (String × String)
deriving DecidableEq, Repr

/-- Zero value of `Identity` (all fields empty, nil map). -/
def zeroIdentity : Identity :=
  { id := "", firstName := "", lastName := "", username := "", email := "",
    country := "", data := [] }

/-- `AuthOutput` of the strict variant: the authenticated user plus the
permission map. -/
structure AuthOutput where
  user : Identity
  permissions : List (String × Bool)
deriving DecidableEq, Repr

/-- Zero value of `AuthOutput`. -/
def zeroAuthOutput : AuthOutput :=
  { user := zeroIdentity, permissions := [] }

/-- `User` input record of the strict variant: nilable fields for
partial updates, plus the free-form data map. -/
structure User where
  firstName : Option String
  lastName : Option String
  username : Option String
  email : Option String
  password : Option String
  data : List (String × String)
deriving DecidableEq, Repr

/-- The package-level mutable variables of `auth.go`. -/
structure State where
  baseUrl : String
  accountId : Option String
  apiKey : Option String
  machineAccessToken : Option String
deriving DecidableEq, Repr

/-- The external world of the strict variant: the HTTP transport
(`none` = transport error), `http.NewRequest` success, `json.Marshal`
of a `User` (its data map may hold unmarshalable values in Go),
`mail.ParseAddress` success, and `encoding/json` decoding of response
bodies (`none` = read or decode error). -/
structure Env where
  http : Request → Option HttpResponse
  newRequestOk : String → String → Bool
  marshalUser : User → Option String
  parseAddressOk : String → Bool
  decodeAuthOutput : String → Option AuthOutput
  decodeIdentity : String → Option Identity
  decodeIdentityList : String → Option (List Identity)

/-- `Init`: selects the base URL by environment and stores the account
credentials.  It does not touch the stored machine token. -/
def Init (account key : String) (isProduction : Bool) (s : State) : State :=
  { baseUrl :=
      if isProduction then "https://api.avidbase.com/"
      else "https://dev-api.avidbase.com/",
    accountId := some account,
    apiKey := some key,
    machineAccessToken := s.machineAccessToken }

/-- Result of a token-manager call: the boolean result, the new state,
and the requests issued. -/
structure TokenResult where
  ok : Bool
  state : State
  requests : List Request
deriving DecidableEq, Repr

/-- The token-acquisition request `POST {base}v1/account/{acct}/token`
with body `{"api_key": key}`. -/
def tokenRequest (baseUrl acct key : String) : Request :=
  { method := "POST",
    url := baseUrl ++ "v1/account/" ++ acct ++ "/token",
    accessTokenHeader := none,
    body := some (marshalStringMap [("api_key", key)]) }

/-- `generateMachineAccessToken`: fails if credentials are absent, the
POST errors, the status is not 200, or the `Access-Token` response
header is empty; otherwise stores the header value as the machine token
and returns true.  (`json.Marshal` of the `map[string]string` body
cannot fail in Go, so that error branch is dead and not modelled.) -/
def generateMachineAccessToken (env : Env) (s : State) : TokenResult :=
  match s.accountId, s.apiKey with
  | some acct, some key =>
    let req := tokenRequest s.baseUrl acct key
    match env.http req with
    | none => { ok := false, state := s, requests := [req] }
    | some resp =>
      if resp.statusCode ≠ 200 ∨ resp.accessTokenHeader = "" then
        { ok := false, state := s, requests := [req] }
      else
        { ok := true,
          state := { s with machineAccessToken := some resp.accessTokenHeader },
          requests := [req] }
  | _, _ => { ok := false, state := s, requests := [] }

/-- `isValidMachineAccessToken`: true immediately when a machine token
is held; otherwise attempts acquisition. -/
def isValidMachineAccessToken (env : Env) (s : State) : TokenResult :=
  match s.machineAccessToken with
  | none =>
    let g := generateMachineAccessToken env s
    if g.ok then { ok := true, state := g.state, requests := g.requests }
    else { ok := false, state := g.state, requests := g.requests }
  | some _ => { ok := true, state := s, requests := [] }

/-- Result of the strict `Login`: the returned access token, the
decoded output, the error, the new state and the requests issued. -/
structure LoginResult where
  accessToken : String
  output : AuthOutput
  err : Option String
  state : State
  requests : List Request
deriving DecidableEq, Repr

/-- The authentication request `POST {base}v1/auth` with the given body. -/
def authRequest (baseUrl body : String) : Request :=
  { method := "POST", url := baseUrl ++ "v1/auth",
    accessTokenHeader := none, body := some body }

/-- The key-value list `Login` marshals: `account_uuid` and `password`
always; the identifier under `email` when `mail.ParseAddress` accepts
it, under `username` otherwise.  Listed in Go's sorted marshal order. -/
def loginValues (env : Env) (acct emailOrUsername password : String) :
    List (String × String) :=
  if env.parseAddressOk emailOrUsername then
    [("account_uuid", acct), ("email", emailOrUsername), ("password", password)]
  else
    [("account_uuid", acct), ("password", password), ("username", emailOrUsername)]

/-- Strict `Login`: authenticates with email/username and password.
The access token from the response header is returned to the caller,
not stored; the state is never modified. -/
def Login (env : Env) (s : State) (emailOrUsername password : String) :
    LoginResult :=
  match s.accountId with
  | none =>
    { accessToken := "", output := zeroAuthOutput,
      err := some "account, email/username or password is missing",
      state := s, requests := [] }
  | some acct =>
    if emailOrUsername = "" ∨ password = "" then
      { accessToken := "", output := zeroAuthOutput,
        err := some "account, email/username or password is missing",
        state := s, requests := [] }
    else
      let req := authRequest s.baseUrl
        (marshalStringMap (loginValues env acct emailOrUsername password))
      match env.http req with
      | none =>
        { accessToken := "", output := zeroAuthOutput,
          err := some "unable to make an auth call",
          state := s, requests := [req] }
      | some resp =>
        if resp.statusCode ≠ 200 then
          let msg :=
            if resp.readAllOk then
              resp.body ++ ", status code: " ++ toString resp.statusCode
            else
              "authentication failed, status code: " ++ toString resp.statusCode
          { accessToken := "", output := zeroAuthOutput, err := some msg,
            state := s, requests := [req] }
        else if resp.accessTokenHeader = "" then
          { accessToken := "", output := zeroAuthOutput,
            err := some "access token missing", state := s, requests := [req] }
        else
          match env.decodeAuthOutput resp.body with
          | none =>
            { accessToken := "", output := zeroAuthOutput,
              err := some "unable to decode auth response",
              state := s, requests := [req] }
          | some out =>
            { accessToken := resp.accessTokenHeader, output := out,
              err := none, state := s, requests := [req] }

/-- Result of a strict resource operation: `ret = none` models a
nil-pointer panic (the function never returns); otherwise `ret` holds
the Go return pair (value, error). -/
structure OpResult (α : Type) where
  ret : Option (α × Option String)
  state : State
  requests : List Request
deriving DecidableEq

/-- Strict `ListUsers`: `GET {base}v1/user` with the machine token as
the `Access-Token` header. -/
def ListUsers (env : Env) (s : State) : OpResult (List Identity) :=
  let users : List Identity := []
  let v := isValidMachineAccessToken env s
  if v.ok then
    let s1 := v.state
    if env.newRequestOk "GET" (s1.baseUrl ++ "v1/user") then
      match s1.machineAccessToken with
      | none => { ret := none, state := s1, requests := v.requests }
      | some tok =>
        let req : Request :=
          { method := "GET", url := s1.baseUrl ++ "v1/user",
            accessTokenHeader := some tok, body := none }
        match env.http req with
        | none =>
          { ret := some (users, some "unable to make a list users call"),
            state := s1, requests := v.requests ++ [req] }
        | some resp =>
          if resp.statusCode ≠ 200 then
            let msg :=
              if resp.readAllOk then
                resp.body ++ ", status code: " ++ toString resp.statusCode
              else
                "list users failed, status code: " ++ toString resp.statusCode
            { ret := some (users, some msg),
              state := s1, requests := v.requests ++ [req] }
          else
            match env.decodeIdentityList resp.body with
            | none =>
              { ret := some (users, some "unable to decode a list users response"),
                state := s1, requests := v.requests ++ [req] }
            | some l =>
              { ret := some (l, none),
                state := s1, requests := v.requests ++ [req] }
    else
      { ret := some (users, some "unable to create a list users request"),
        state := s1, requests := v.requests }
  else
    { ret := some (users,
        some "invalid api key or unable to generate machine access token"),
      state := v.state, requests := v.requests }

/-- Strict `GetUser`: `GET {base}v1/user/{id}` with the machine token. -/
def GetUser (env : Env) (s : State) (userId : String) : OpResult Identity :=
  let v := isValidMachineAccessToken env s
  if v.ok then
    let s1 := v.state
    if env.newRequestOk "GET" (s1.baseUrl ++ "v1/user/" ++ userId) then
      match s1.machineAccessToken with
      | none => { ret := none, state := s1, requests := v.requests }
      | some tok =>
        let req : Request :=
          { method := "GET", url := s1.baseUrl ++ "v1/user/" ++ userId,
            accessTokenHeader := some tok, body := none }
        match env.http req with
        | none =>
          { ret := some (zeroIdentity, some "unable to make a get user call"),
            state := s1, requests := v.requests ++ [req] }
        | some resp =>
          if resp.statusCode ≠ 200 then
            let msg :=
              if resp.readAllOk then
                resp.body ++ ", status code: " ++ toString resp.statusCode
              else
                "get user failed, status code: " ++ toString resp.statusCode
            { ret := some (zeroIdentity, some msg),
              state := s1, requests := v.requests ++ [req] }
          else
            match env.decodeIdentity resp.body with
            | none =>
              { ret := some (zeroIdentity,
                  some "unable to decode a get user response"),
                state := s1, requests := v.requests ++ [req] }
            | some u =>
              { ret := some (u, none),
                state := s1, requests := v.requests ++ [req] }
    else
      { ret := some (zeroIdentity, some "unable to create a get user request"),
        state := s1, requests := v.requests }
  else
    { ret := some (zeroIdentity,
        some "invalid api key or unable to generate machine access token"),
      state := v.state, requests := v.requests }

/-- Strict `CreateUser`: `POST {base}v1/user` with the marshalled user
as body and the machine token as header. -/
def CreateUser (env : Env) (s : State) (user : User) : OpResult Identity :=
  let v := isValidMachineAccessToken env s
  if v.ok then
    let s1 := v.state
    match env.marshalUser user with
    | none =>
      { ret := some (zeroIdentity, some "unable to json encode given user info"),
        state := s1, requests := v.requests }
    | some jsonData =>
      if env.newRequestOk "POST" (s1.baseUrl ++ "v1/user") then
        match s1.machineAccessToken with
        | none => { ret := none, state := s1, requests := v.requests }
        | some tok =>
          let req : Request :=
            { method := "POST", url := s1.baseUrl ++ "v1/user",
              accessTokenHeader := some tok, body := some jsonData }
          match env.http req with
          | none =>
            { ret := some (zeroIdentity, some "unable to make a create user call"),
              state := s1, requests := v.requests ++ [req] }
          | some resp =>
            if resp.statusCode ≠ 200 then
              let msg :=
                if resp.readAllOk then
                  resp.body ++ ", status code: " ++ toString resp.statusCode
                else
                  "create user failed, status code: " ++ toString resp.statusCode
              { ret := some (zeroIdentity, some msg),
                state := s1, requests := v.requests ++ [req] }
            else
              match env.decodeIdentity resp.body with
              | none =>
                { ret := some (zeroIdentity,
                    some "unable to decode a create user response"),
                  state := s1, requests := v.requests ++ [req] }
              | some u =>
                { ret := some (u, none),
                  state := s1, requests := v.requests ++ [req] }
      else
        { ret := some (zeroIdentity,
            some "unable to create a create user request"),
          state := s1, requests := v.requests }
  else
    { ret := some (zeroIdentity,
        some "invalid api key or unable to generate machine access token"),
      state := v.state, requests := v.requests }

/-- Strict `UpdateUser`: `PUT {base}v1/user/{id}` with the marshalled
user as body and the machine token as header. -/
def UpdateUser (env : Env) (s : State) (userId : String) (user : User) :
    OpResult Identity :=
  let v := isValidMachineAccessToken env s
  if v.ok then
    let s1 := v.state
    match env.marshalUser user with
    | none =>
      { ret := some (zeroIdentity, some "unable to json encode given user info"),
        state := s1, requests := v.requests }
    | some jsonData =>
      if env.newRequestOk "PUT" (s1.baseUrl ++ "v1/user/" ++ userId) then
        match s1.machineAccessToken with
        | none => { ret := none, state := s1, requests := v.requests }
        | some tok =>
          let req : Request :=
            { method := "PUT", url := s1.baseUrl ++ "v1/user/" ++ userId,
              accessTokenHeader := some tok, body := some jsonData }
          match env.http req with
          | none =>
            { ret := some (zeroIdentity, some "unable to make an update user call"),
              state := s1, requests := v.requests ++ [req] }
          | some resp =>
            if resp.statusCode ≠ 200 then
              let msg :=
                if resp.readAllOk then
                  resp.body ++ ", status code: " ++ toString resp.statusCode
                else
                  "update user failed, status code: " ++ toString resp.statusCode
              { ret := some (zeroIdentity, some msg),
                state := s1, requests := v.requests ++ [req] }
            else
              match env.decodeIdentity resp.body with
              | none =>
                { ret := some (zeroIdentity,
                    some "unable to decode an update user response"),
                  state := s1, requests := v.requests ++ [req] }
              | some u =>
                { ret := some (u, none),
                  state := s1, requests := v.requests ++ [req] }
      else
        { ret := some (zeroIdentity,
            some "unable to create an update user request"),
          state := s1, requests := v.requests }
  else
    { ret := some (zeroIdentity,
        some "invalid api key or unable to generate machine access token"),
      state := v.state, requests := v.requests }

/-- `StringValue`: the value of a string pointer, or `""` when nil. -/
def StringValue (v : Option String) : String :=
  match v with
  | some s => s
  | none => ""

end Avidbase

namespace GoAuth

/-- `OutputUser` record of the lenient variant. -/
structure OutputUser where
  id : String
  firstName : String
  lastName : String
  email : String
  status : Int
  createdAt : String
deriving DecidableEq, Repr

/-- Zero value of `OutputUser`. -/
def zeroOutputUser : OutputUser :=
  { id := "", firstName := "", lastName := "", email := "", status := 0,
    createdAt := "" }

/-- `AuthOutput` of the lenient variant. -/
structure AuthOutput where
  user : OutputUser
  permissions : List (String × Bool)
deriving DecidableEq, Repr

/-- Zero value of the lenient `AuthOutput`. -/
def zeroAuthOutput : AuthOutput :=
  { user := zeroOutputUser, permissions := [] }

/-- `User` input record of the lenient variant: four plain strings. -/
structure User where
  firstName : String
  lastName : String
  email : String
  password : String
deriving DecidableEq, Repr

/-- The package-level mutable variables of the lenient variant,
including the user access token set by `Login`. -/
structure State where
  baseUrl : String
  accountId : Option String
  apiKey : Option String
  machineAccessToken : Option String
  userAccessToken : Option String
deriving DecidableEq, Repr

/-- The external world of the lenient variant.  `json.Marshal` of the
lenient `User` (four plain string fields) cannot fail in Go, so it is
the total function `marshalUser` below rather than an `Env` field. -/
structure Env where
  http : Request → Option HttpResponse
  newRequestOk : String → String → Bool
  decodeAuthOutput : String → Option AuthOutput
  decodeOutputUser : String → Option OutputUser
  decodeOutputUserList : String → Option (List OutputUser)

/-- Models `json.Marshal` of the lenient `User` struct (fields in Go's
struct-declaration order; cannot fail for plain string fields). -/
def marshalUser (u : User) : String :=
  marshalStringMap
    [("first_name", u.firstName), ("last_name", u.lastName),
     ("email", u.email), ("password", u.password)]

/-- Lenient `Init`: always the development base URL. -/
def Init (account key : String) (s : State) : State :=
  { baseUrl := "https://dev-api.avidbase.com/",
    accountId := some account,
    apiKey := some key,
    machineAccessToken := s.machineAccessToken,
    userAccessToken := s.userAccessToken }

/-- Result of a lenient token-manager call. -/
structure TokenResult where
  ok : Bool
  state : State
  requests : List Request
deriving DecidableEq, Repr

/-- Lenient `generateMachineAccessToken`: identical logic to the strict
variant, acting on the lenient state (the user token is untouched). -/
def generateMachineAccessToken (env : Env) (s : State) : TokenResult :=
  match s.accountId, s.apiKey with
  | some acct, some key =>
    let req := Avidbase.tokenRequest s.baseUrl acct key
    match env.http req with
    | none => { ok := false, state := s, requests := [req] }
    | some resp =>
      if resp.statusCode ≠ 200 ∨ resp.accessTokenHeader = "" then
        { ok := false, state := s, requests := [req] }
      else
        { ok := true,
          state := { s with machineAccessToken := some resp.accessTokenHeader },
          requests := [req] }
  | _, _ => { ok := false, state := s, requests := [] }

/-- Lenient `isValidMachineAccessToken`. -/
def isValidMachineAccessToken (env : Env) (s : State) : TokenResult :=
  match s.machineAccessToken with
  | none =>
    let g := generateMachineAccessToken env s
    if g.ok then { ok := true, state := g.state, requests := g.requests }
    else { ok := false, state := g.state, requests := g.requests }
  | some _ => { ok := true, state := s, requests := [] }

/-- `IsLoggedIn`: whether a non-empty user access token is held. -/
def IsLoggedIn (s : State) : Bool :=
  match s.userAccessToken with
  | none => false
  | some t => t ≠ ""

/-- `GetUserAccessToken`: the held user access token, or `""`. -/
def GetUserAccessToken (s : State) : String :=
  match s.userAccessToken with
  | none => ""
  | some t => t

/-- Result of the lenient `Login`: the decoded output, the new state,
and the requests issued.  No error channel and no panic is possible. -/
structure LoginResult where
  output : AuthOutput
  state : State
  requests : List Request
deriving DecidableEq, Repr

/-- Lenient `Login`: always sends the identifier under the `email` key
(with `api_key`); stores the header token whenever the response carries
a non-empty `Access-Token` header, regardless of status; decodes the
body exactly when the status is 200. -/
def Login (env : Env) (s : State) (email password : String) : LoginResult :=
  match s.apiKey with
  | none => { output := zeroAuthOutput, state := s, requests := [] }
  | some key =>
    if email = "" ∨ password = "" then
      { output := zeroAuthOutput, state := s, requests := [] }
    else
      let req := Avidbase.authRequest s.baseUrl
        (marshalStringMap
          [("api_key", key), ("email", email), ("password", password)])
      match env.http req with
      | none => { output := zeroAuthOutput, state := s, requests := [req] }
      | some resp =>
        let s1 :=
          if resp.accessTokenHeader ≠ "" then
            { s with userAccessToken := some resp.accessTokenHeader }
          else s
        let out :=
          if resp.statusCode = 200 then
            (env.decodeAuthOutput resp.body).getD zeroAuthOutput
          else zeroAuthOutput
        { output := out, state := s1, requests := [req] }

/-- Result of a lenient resource operation: `ret = none` models the
nil-pointer panic on `*userAccessToken`. -/
structure OpResult (α : Type) where
  ret : Option α
  state : State
  requests : List Request
deriving DecidableEq

/-- Lenient `ListUsers`: validates the machine token but sets the
`Access-Token` request header by dereferencing `userAccessToken`; after
the call, stores any non-empty `Access-Token` response header as the
user token (before the status check); decodes the body only on 200. -/
def ListUsers (env : Env) (s : State) : OpResult (List OutputUser) :=
  let users : List OutputUser := []
  let v := isValidMachineAccessToken env s
  if v.ok then
    let s1 := v.state
    if env.newRequestOk "GET" (s1.baseUrl ++ "v1/user") then
      match s1.userAccessToken with
      | none => { ret := none, state := s1, requests := v.requests }
      | some utok =>
        let req : Request :=
          { method := "GET", url := s1.baseUrl ++ "v1/user",
            accessTokenHeader := some utok, body := none }
        match env.http req with
        | none =>
          { ret := some users, state := s1, requests := v.requests ++ [req] }
        | some resp =>
          let s2 :=
            if resp.accessTokenHeader ≠ "" then
              { s1 with userAccessToken := some resp.accessTokenHeader }
            else s1
          if resp.statusCode = 200 then
            { ret := some ((env.decodeOutputUserList resp.body).getD users),
              state := s2, requests := v.requests ++ [req] }
          else
            { ret := some users, state := s2, requests := v.requests ++ [req] }
    else
      { ret := some users, state := v.state, requests := v.requests }
  else
    { ret := some users, state := v.state, requests := v.requests }

/-- Lenient `LoadUser`: same shape as `ListUsers` for a single user. -/
def LoadUser (env : Env) (s : State) (userId : String) : OpResult OutputUser :=
  let v := isValidMachineAccessToken env s
  if v.ok then
    let s1 := v.state
    if env.newRequestOk "GET" (s1.baseUrl ++ "v1/user/" ++ userId) then
      match s1.userAccessToken with
      | none => { ret := none, state := s1, requests := v.requests }
      | some utok =>
        let req : Request :=
          { method := "GET", url := s1.baseUrl ++ "v1/user/" ++ userId,
            accessTokenHeader := some utok, body := none }
        match env.http req with
        | none =>
          { ret := some zeroOutputUser, state := s1,
            requests := v.requests ++ [req] }
        | some resp =>
          let s2 :=
            if resp.accessTokenHeader ≠ "" then
              { s1 with userAccessToken := some resp.accessTokenHeader }
            else s1
          if resp.statusCode = 200 then
            { ret := some ((env.decodeOutputUser resp.body).getD zeroOutputUser),
              state := s2, requests := v.requests ++ [req] }
          else
            { ret := some zeroOutputUser, state := s2,
              requests := v.requests ++ [req] }
    else
      { ret := some zeroOutputUser, state := v.state, requests := v.requests }
  else
    { ret := some zeroOutputUser, state := v.state, requests := v.requests }

/-- Lenient `CreateUser`: `POST {base}v1/user`; no token refresh from
the response header; returns a boolean success flag. -/
def CreateUser (env : Env) (s : State) (user : User) : OpResult Bool :=
  let v := isValidMachineAccessToken env s
  if v.ok then
    let s1 := v.state
    let jsonData := marshalUser user
    if env.newRequestOk "POST" (s1.baseUrl ++ "v1/user") then
      match s1.userAccessToken with
      | none => { ret := none, state := s1, requests := v.requests }
      | some utok =>
        let req : Request :=
          { method := "POST", url := s1.baseUrl ++ "v1/user",
            accessTokenHeader := some utok, body := some jsonData }
        match env.http req with
        | none =>
          { ret := some false, state := s1, requests := v.requests ++ [req] }
        | some resp =>
          if resp.statusCode = 200 then
            { ret := some true, state := s1, requests := v.requests ++ [req] }
          else
            { ret := some false, state := s1, requests := v.requests ++ [req] }
    else
      { ret := some false, state := s1, requests := v.requests }
  else
    { ret := some false, state := v.state, requests := v.requests }

/-- Lenient `UpdateUser`: `PUT {base}v1/user/{id}`; no token refresh
from the response header; returns a boolean success flag. -/
def UpdateUser (env : Env) (s : State) (userId : String) (user : User) :
    OpResult Bool :=
  let v := isValidMachineAccessToken env s
  if v.ok then
    let s1 := v.state
    let jsonData := marshalUser user
    if env.newRequestOk "PUT" (s1.baseUrl ++ "v1/user/" ++ userId) then
      match s1.userAccessToken with
      | none => { ret := none, state := s1, requests := v.requests }
      | some utok =>
        let req : Request :=
          { method := "PUT", url := s1.baseUrl ++ "v1/user/" ++ userId,
            accessTokenHeader := some utok, body := some jsonData }
        match env.http req with
        | none =>
          { ret := some false, state := s1, requests := v.requests ++ [req] }
        | some resp =>
          if resp.statusCode = 200 then
            { ret := some true, state := s1, requests := v.requests ++ [req] }
          else
            { ret := some false, state := s1, requests := v.requests ++ [req] }
    else
      { ret := some false, state := s1, requests := v.requests }
  else
    { ret := some false, state := v.state, requests := v.requests }

end GoAuth

/-- A strict-variant environment whose transport returns the same
response for every request; the decode results are supplied directly. -/
def constEnvA (resp : Option HttpResponse) (dA : Option Avidbase.AuthOutput)
    (dI : Option Avidbase.Identity) (dL : Option (List Avidbase.Identity)) :
    Avidbase.Env :=
  { http := fun _ => resp,
    newRequestOk := fun _ _ => true,
    marshalUser := fun _ => some "",
    parseAddressOk := fun s => strContains s "@",
    decodeAuthOutput := fun _ => dA,
    decodeIdentity := fun _ => dI,
    decodeIdentityList := fun _ => dL }

/-- A lenient-variant environment whose transport returns the same
response for every request; the decode results are supplied directly. -/
def constEnvG (resp : Option HttpResponse) (dA : Option GoAuth.AuthOutput)
    (dU : Option GoAuth.OutputUser) (dL : Option (List GoAuth.OutputUser)) :
    GoAuth.Env :=
  { http := fun _ => resp,
    newRequestOk := fun _ _ => true,
    decodeAuthOutput := fun _ => dA,
    decodeOutputUser := fun _ => dU,
    decodeOutputUserList := fun _ => dL }

/-- A concrete strict-variant state with the given machine token. -/
def stateA (m : Option String) : Avidbase.State :=
  { baseUrl := "https://api.avidbase.com/", accountId := some "acct",
    apiKey := some "key", machineAccessToken := m }

/-- A concrete lenient-variant state with the given machine and user
tokens. -/
def stateG (m u : Option String) : GoAuth.State :=
  { baseUrl := "https://dev-api.avidbase.com/", accountId := some "acct",
    apiKey := some "key", machineAccessToken := m, userAccessToken := u }

/-- If strict token generation fails, the state is unchanged. -/
theorem avidGen_not_ok_state (env : Avidbase.Env) (s : Avidbase.State)
    (h : (Avidbase.generateMachineAccessToken env s).ok = false) :
    (Avidbase.generateMachineAccessToken env s).state = s := by
  obtain ⟨b, a, k, m⟩ := s
  cases a with
  | none => rfl
  | some acct =>
    cases k with
    | none => rfl
    | some key =>
      simp only [Avidbase.generateMachineAccessToken] at h ⊢
      cases hr : env.http (Avidbase.tokenRequest b acct key) with
      | none => simp [hr]
      | some resp =>
        simp only [hr] at h ⊢
        by_cases hc : resp.statusCode ≠ 200 ∨ resp.accessTokenHeader = ""
        · simp [hc]
        · simp [hc] at h

/-- If strict token generation succeeds, the result is exactly the
token request and the state with the header token stored. -/
theorem avidGen_ok_result (env : Avidbase.Env) (s : Avidbase.State)
    (acct key : String) (resp : HttpResponse)
    (ha : s.accountId = some acct) (hk : s.apiKey = some key)
    (hr : env.http (Avidbase.tokenRequest s.baseUrl acct key) = some resp)
    (hst : resp.statusCode = 200) (hh : resp.accessTokenHeader ≠ "") :
    Avidbase.generateMachineAccessToken env s =
      ⟨true, { s with machineAccessToken := some resp.accessTokenHeader },
        [Avidbase.tokenRequest s.baseUrl acct key]⟩ := by
  obtain ⟨b, a, k, m⟩ := s
  simp only at ha hk
  subst ha; subst hk
  simp only [Avidbase.generateMachineAccessToken] at hr ⊢
  simp [hr, hst, hh]

/-- Strict token generation succeeds exactly when credentials are
present, the transport returns a response, the status is 200, and the
`Access-Token` header is non-empty. -/
theorem avidGen_ok_iff (env : Avidbase.Env) (s : Avidbase.State) :
    (Avidbase.generateMachineAccessToken env s).ok = true ↔
      ∃ acct key resp, s.accountId = some acct ∧ s.apiKey = some key ∧
        env.http (Avidbase.tokenRequest s.baseUrl acct key) = some resp ∧
        resp.statusCode = 200 ∧ resp.accessTokenHeader ≠ "" := by
  obtain ⟨b, a, k, m⟩ := s
  cases a with
  | none => simp [Avidbase.generateMachineAccessToken]
  | some acct =>
    cases k with
    | none => simp [Avidbase.generateMachineAccessToken]
    | some key =>
      simp only [Avidbase.generateMachineAccessToken]
      cases hr : env.http (Avidbase.tokenRequest b acct key) with
      | none => simp [hr]
      | some resp =>
        by_cases hc : resp.statusCode ≠ 200 ∨ resp.accessTokenHeader = ""
        · simp only [hr, if_pos hc]
          simp only [Option.some.injEq]
          constructor
          · intro hfalse; cases hfalse
          · rintro ⟨a2, k2, r2, ha2, hk2, hr2, hst2, hh2⟩
            obtain rfl := ha2
            obtain rfl := hk2
            rw [hr] at hr2
            obtain rfl : resp = r2 := by injection hr2
            rcases hc with hc | hc
            · exact absurd hst2 hc
            · exact absurd hc hh2
        · simp only [hr, if_neg hc]
          push_neg at hc
          obtain ⟨hst, hh⟩ := hc
          simp only [true_iff]
          exact ⟨acct, key, resp, rfl, rfl, hr, hst, hh⟩

/-- If a machine token is held, strict validation returns true with no
request and an unchanged state. -/
theorem avidIsValid_of_some (env : Avidbase.Env) (s : Avidbase.State)
    (t : String) (h : s.machineAccessToken = some t) :
    Avidbase.isValidMachineAccessToken env s = ⟨true, s, []⟩ := by
  unfold Avidbase.isValidMachineAccessToken
  rw [h]

/-- If no machine token is held and generation fails, strict validation
fails without changing the state. -/
theorem avidIsValid_of_none_fail (env : Avidbase.Env) (s : Avidbase.State)
    (h0 : s.machineAccessToken = none)
    (hg : (Avidbase.generateMachineAccessToken env s).ok = false) :
    Avidbase.isValidMachineAccessToken env s =
      ⟨false, s, (Avidbase.generateMachineAccessToken env s).requests⟩ := by
  unfold Avidbase.isValidMachineAccessToken
  rw [h0]
  simp [hg, avidGen_not_ok_state env s hg]

/-- If no machine token is held and generation succeeds, strict
validation returns true with the generation result. -/
theorem avidIsValid_of_none_ok (env : Avidbase.Env) (s : Avidbase.State)
    (h0 : s.machineAccessToken = none)
    (hg : (Avidbase.generateMachineAccessToken env s).ok = true) :
    Avidbase.isValidMachineAccessToken env s =
      ⟨true, (Avidbase.generateMachineAccessToken env s).state,
        (Avidbase.generateMachineAccessToken env s).requests⟩ := by
  unfold Avidbase.isValidMachineAccessToken
  rw [h0]
  simp [hg]

/-- If lenient token generation fails, the state is unchanged. -/
theorem goGen_not_ok_state (env : GoAuth.Env) (s : GoAuth.State)
    (h : (GoAuth.generateMachineAccessToken env s).ok = false) :
    (GoAuth.generateMachineAccessToken env s).state = s := by
  obtain ⟨b, a, k, m, u⟩ := s
  cases a with
  | none => rfl
  | some acct =>
    cases k with
    | none => rfl
    | some key =>
      simp only [GoAuth.generateMachineAccessToken] at h ⊢
      cases hr : env.http (Avidbase.tokenRequest b acct key) with
      | none => simp [hr]
      | some resp =>
        simp only [hr] at h ⊢
        by_cases hc : resp.statusCode ≠ 200 ∨ resp.accessTokenHeader = ""
        · simp [hc]
        · simp [hc] at h

/-- Lenient token generation never touches the user access token. -/
theorem goGen_userToken (env : GoAuth.Env) (s : GoAuth.State) :
    (GoAuth.generateMachineAccessToken env s).state.userAccessToken =
      s.userAccessToken := by
  obtain ⟨b, a, k, m, u⟩ := s
  cases a with
  | none => rfl
  | some acct =>
    cases k with
    | none => rfl
    | some key =>
      simp only [GoAuth.generateMachineAccessToken]
      cases hr : env.http (Avidbase.tokenRequest b acct key) with
      | none => simp [hr]
      | some resp =>
        simp only [hr]
        by_cases hc : resp.statusCode ≠ 200 ∨ resp.accessTokenHeader = ""
        · simp [hc]
        · simp [hc]

/-- If lenient token generation succeeds, the result is exactly the
token request and the state with the header token stored. -/
theorem goGen_ok_result (env : GoAuth.Env) (s : GoAuth.State)
    (acct key : String) (resp : HttpResponse)
    (ha : s.accountId = some acct) (hk : s.apiKey = some key)
    (hr : env.http (Avidbase.tokenRequest s.baseUrl acct key) = some resp)
    (hst : resp.statusCode = 200) (hh : resp.accessTokenHeader ≠ "") :
    GoAuth.generateMachineAccessToken env s =
      ⟨true, { s with machineAccessToken := some resp.accessTokenHeader },
        [Avidbase.tokenRequest s.baseUrl acct key]⟩ := by
  obtain ⟨b, a, k, m, u⟩ := s
  simp only at ha hk
  subst ha; subst hk
  simp only [GoAuth.generateMachineAccessToken] at hr ⊢
  simp [hr, hst, hh]

/-- Lenient token generation succeeds exactly when credentials are
present, the transport returns a response, the status is 200, and the
`Access-Token` header is non-empty. -/
theorem goGen_ok_iff (env : GoAuth.Env) (s : GoAuth.State) :
    (GoAuth.generateMachineAccessToken env s).ok = true ↔
      ∃ acct key resp, s.accountId = some acct ∧ s.apiKey = some key ∧
        env.http (Avidbase.tokenRequest s.baseUrl acct key) = some resp ∧
        resp.statusCode = 200 ∧ resp.accessTokenHeader ≠ "" := by
  obtain ⟨b, a, k, m, u⟩ := s
  cases a with
  | none => simp [GoAuth.generateMachineAccessToken]
  | some acct =>
    cases k with
    | none => simp [GoAuth.generateMachineAccessToken]
    | some key =>
      simp only [GoAuth.generateMachineAccessToken]
      cases hr : env.http (Avidbase.tokenRequest b acct key) with
      | none => simp [hr]
      | some resp =>
        by_cases hc : resp.statusCode ≠ 200 ∨ resp.accessTokenHeader = ""
        · simp only [hr, if_pos hc]
          simp only [Option.some.injEq]
          constructor
          · intro hfalse; cases hfalse
          · rintro ⟨a2, k2, r2, ha2, hk2, hr2, hst2, hh2⟩
            obtain rfl := ha2
            obtain rfl := hk2
            rw [hr] at hr2
            obtain rfl : resp = r2 := by injection hr2
            rcases hc with hc | hc
            · exact absurd hst2 hc
            · exact absurd hc hh2
        · simp only [hr, if_neg hc]
          push_neg at hc
          obtain ⟨hst, hh⟩ := hc
          simp only [true_iff]
          exact ⟨acct, key, resp, rfl, rfl, hr, hst, hh⟩

/-- If a machine token is held, lenient validation returns true with no
request and an unchanged state. -/
theorem goIsValid_of_some (env : GoAuth.Env) (s : GoAuth.State)
    (t : String) (h : s.machineAccessToken = some t) :
    GoAuth.isValidMachineAccessToken env s = ⟨true, s, []⟩ := by
  unfold GoAuth.isValidMachineAccessToken
  rw [h]

/-- If no machine token is held and generation fails, lenient
validation fails without changing the state. -/
theorem goIsValid_of_none_fail (env : GoAuth.Env) (s : GoAuth.State)
    (h0 : s.machineAccessToken = none)
    (hg : (GoAuth.generateMachineAccessToken env s).ok = false) :
    GoAuth.isValidMachineAccessToken env s =
      ⟨false, s, (GoAuth.generateMachineAccessToken env s).requests⟩ := by
  unfold GoAuth.isValidMachineAccessToken
  rw [h0]
  simp [hg, goGen_not_ok_state env s hg]

/-- If no machine token is held and generation succeeds, lenient
validation returns true with the generation result. -/
theorem goIsValid_of_none_ok (env : GoAuth.Env) (s : GoAuth.State)
    (h0 : s.machineAccessToken = none)
    (hg : (GoAuth.generateMachineAccessToken env s).ok = true) :
    GoAuth.isValidMachineAccessToken env s =
      ⟨true, (GoAuth.generateMachineAccessToken env s).state,
        (GoAuth.generateMachineAccessToken env s).requests⟩ := by
  unfold GoAuth.isValidMachineAccessToken
  rw [h0]
  simp [hg]

/-- Lenient validation never touches the user access token. -/
theorem goIsValid_userToken (env : GoAuth.Env) (s : GoAuth.State) :
    (GoAuth.isValidMachineAccessToken env s).state.userAccessToken =
      s.userAccessToken := by
  unfold GoAuth.isValidMachineAccessToken
  cases h0 : s.machineAccessToken with
  | none =>
    by_cases hg : (GoAuth.generateMachineAccessToken env s).ok = true
    · simp [hg, goGen_userToken]
    · simp at hg
      simp [hg, goGen_userToken]
  | some t => rfl

/-- Lenient validation succeeding means the resulting state holds a
machine token. -/
theorem goIsValid_ok_machine (env : GoAuth.Env) (s : GoAuth.State)
    (h : (GoAuth.isValidMachineAccessToken env s).ok = true) :
    ∃ t, (GoAuth.isValidMachineAccessToken env s).state.machineAccessToken =
      some t := by
  unfold GoAuth.isValidMachineAccessToken at h ⊢
  cases h0 : s.machineAccessToken with
  | none =>
    simp only [h0] at h ⊢
    by_cases hg : (GoAuth.generateMachineAccessToken env s).ok = true
    · rw [goGen_ok_iff] at hg
      obtain ⟨acct, key, resp, ha, hk, hr, hst, hh⟩ := hg
      rw [goGen_ok_result env s acct key resp ha hk hr hst hh]
      simp [goGen_ok_result env s acct key resp ha hk hr hst hh]
    · simp at hg
      simp [hg] at h
  | some t => simp [h0]

/-- Strict validation succeeding means the resulting state holds a
machine token. -/
theorem avidIsValid_ok_machine (env : Avidbase.Env) (s : Avidbase.State)
    (h : (Avidbase.isValidMachineAccessToken env s).ok = true) :
    ∃ t, (Avidbase.isValidMachineAccessToken env s).state.machineAccessToken =
      some t := by
  unfold Avidbase.isValidMachineAccessToken at h ⊢
  cases h0 : s.machineAccessToken with
  | none =>
    simp only [h0] at h ⊢
    by_cases hg : (Avidbase.generateMachineAccessToken env s).ok = true
    · rw [avidGen_ok_iff] at hg
      obtain ⟨acct, key, resp, ha, hk, hr, hst, hh⟩ := hg
      simp [avidGen_ok_result env s acct key resp ha hk hr hst hh]
    · simp at hg
      simp [hg] at h
  | some t => simp [h0]

/-- The requests issued by strict token generation are at most the one
token-acquisition request. -/
theorem avidGen_requests (env : Avidbase.Env) (s : Avidbase.State) :
    (Avidbase.generateMachineAccessToken env s).requests = [] ∨
      ∃ acct key, s.accountId = some acct ∧ s.apiKey = some key ∧
        (Avidbase.generateMachineAccessToken env s).requests =
          [Avidbase.tokenRequest s.baseUrl acct key] := by
  obtain ⟨b, a, k, m⟩ := s
  cases a with
  | none => left; rfl
  | some acct =>
    cases k with
    | none => left; rfl
    | some key =>
      right
      refine ⟨acct, key, rfl, rfl, ?_⟩
      simp only [Avidbase.generateMachineAccessToken]
      cases hr : env.http (Avidbase.tokenRequest b acct key) with
      | none => simp [hr]
      | some resp =>
        simp only [hr]
        by_cases hc : resp.statusCode ≠ 200 ∨ resp.accessTokenHeader = ""
        · simp [hc]
        · simp [hc]

/-- The requests issued by lenient token generation are at most the one
token-acquisition request. -/
theorem goGen_requests (env : GoAuth.Env) (s : GoAuth.State) :
    (GoAuth.generateMachineAccessToken env s).requests = [] ∨
      ∃ acct key, s.accountId = some acct ∧ s.apiKey = some key ∧
        (GoAuth.generateMachineAccessToken env s).requests =
          [Avidbase.tokenRequest s.baseUrl acct key] := by
  obtain ⟨b, a, k, m, u⟩ := s
  cases a with
  | none => left; rfl
  | some acct =>
    cases k with
    | none => left; rfl
    | some key =>
      right
      refine ⟨acct, key, rfl, rfl, ?_⟩
      simp only [GoAuth.generateMachineAccessToken]
      cases hr : env.http (Avidbase.tokenRequest b acct key) with
      | none => simp [hr]
      | some resp =>
        simp only [hr]
        by_cases hc : resp.statusCode ≠ 200 ∨ resp.accessTokenHeader = ""
        · simp [hc]
        · simp [hc]

/-- With a machine token already held, strict `ListUsers` leaves the
state unchanged and issues only `GET {base}v1/user` requests. -/
theorem avidListUsers_of_some (env : Avidbase.Env) (s : Avidbase.State)
    (t : String) (h : s.machineAccessToken = some t) :
    (Avidbase.ListUsers env s).state = s ∧
    ∀ r ∈ (Avidbase.ListUsers env s).requests,
      r.url = s.baseUrl ++ "v1/user" := by
  unfold Avidbase.ListUsers
  rw [avidIsValid_of_some env s t h]
  by_cases hn : env.newRequestOk "GET" (s.baseUrl ++ "v1/user") = true
  · simp only [hn, h]
    cases hr : env.http ⟨"GET", s.baseUrl ++ "v1/user", some t, none⟩ with
    | none => simp [hr]
    | some resp =>
      simp only [hr]
      by_cases hst : resp.statusCode ≠ 200
      · simp [hst]
      · cases hd : env.decodeIdentityList resp.body <;> simp [hd, hst]
  · simp at hn
    simp [hn, h]

/-- C3: when a machine access token is already held (in either
variant), `isValidMachineAccessToken` returns true with no HTTP request
and an unchanged state, so it never invokes
`generateMachineAccessToken`; a token-requiring call in that state
issues only resource requests and leaves the stored machine token
unchanged; and starting from a token-less state whose acquisition
succeeds, the first validation issues exactly one token-acquisition
request while a second validation on the resulting state issues none. -/
theorem C3_token_cache_idempotent
    (envA : Avidbase.Env) (envG : GoAuth.Env)
    (sA : Avidbase.State) (sG : GoAuth.State) (tA tG : String)
    (hA : sA.machineAccessToken = some tA)
    (hG : sG.machineAccessToken = some tG) :
    Avidbase.isValidMachineAccessToken envA sA = ⟨true, sA, []⟩ ∧
    GoAuth.isValidMachineAccessToken envG sG = ⟨true, sG, []⟩ ∧
    (Avidbase.ListUsers envA sA).state.machineAccessToken = some tA ∧
    (∀ r ∈ (Avidbase.ListUsers envA sA).requests,
      r.url = sA.baseUrl ++ "v1/user") ∧
    (∀ s0 : Avidbase.State, s0.machineAccessToken = none →
      (Avidbase.generateMachineAccessToken envA s0).ok = true →
      Avidbase.isValidMachineAccessToken envA s0 =
        ⟨true, (Avidbase.generateMachineAccessToken envA s0).state,
          (Avidbase.generateMachineAccessToken envA s0).requests⟩ ∧
      (Avidbase.generateMachineAccessToken envA s0).requests.length = 1 ∧
      Avidbase.isValidMachineAccessToken envA
          (Avidbase.generateMachineAccessToken envA s0).state =
        ⟨true, (Avidbase.generateMachineAccessToken envA s0).state, []⟩) := by
  obtain ⟨hstate, hreq⟩ := avidListUsers_of_some envA sA tA hA
  refine ⟨avidIsValid_of_some envA sA tA hA, goIsValid_of_some envG sG tG hG,
    by rw [hstate]; exact hA, hreq, ?_⟩
  intro s0 h0 hg
  have hiff := (avidGen_ok_iff envA s0).mp hg
  obtain ⟨acct, key, resp, ha, hk, hr, hst, hh⟩ := hiff
  have hres := avidGen_ok_result envA s0 acct key resp ha hk hr hst hh
  refine ⟨avidIsValid_of_none_ok envA s0 h0 hg, ?_, ?_⟩
  · rw [hres]; rfl
  · rw [hres]
    exact avidIsValid_of_some envA _ resp.accessTokenHeader rfl

/-- C3 witness: a concrete state holding token `T1`; validation
returns true immediately with no request. -/
theorem C3_token_cache_idempotent_witness :
    (stateA (some "T1")).machineAccessToken = some "T1" ∧
    Avidbase.isValidMachineAccessToken
        (constEnvA (some ⟨200, "T2", "", true⟩) none none none)
        (stateA (some "T1")) =
      ⟨true, stateA (some "T1"), []⟩ :=
  ⟨rfl,
    (C3_token_cache_idempotent
      (constEnvA (some ⟨200, "T2", "", true⟩) none none none)
      (constEnvG (some ⟨200, "T2", "", true⟩) none none none)
      (stateA (some "T1")) (stateG (some "T1") none) "T1" "T1"
      rfl rfl).1⟩

/-- The token-acquisition URL differs from the user-collection URL on
the same base: their paths diverge at `v1/acc` versus `v1/use`. -/
theorem tokenUrl_ne_listUrl (b acct key : String) :
    (Avidbase.tokenRequest b acct key).url ≠ b ++ "v1/user" := by
  intro h
  simp only [Avidbase.tokenRequest] at h
  have hd := congrArg String.data h
  simp only [String.data_append] at hd
  simp only [List.append_assoc] at hd
  have h2 := congrArg (List.drop b.data.length) hd
  rw [List.drop_left, List.drop_left] at h2
  have h3 := congrArg (List.take 6) h2
  rw [List.take_append_of_le_length (by decide)] at h3
  exact absurd h3 (by decide)

/-- The token-acquisition URL differs from every single-user URL on the
same base: their paths diverge at `v1/acc` versus `v1/use`. -/
theorem tokenUrl_ne_itemUrl (b acct key uid : String) :
    (Avidbase.tokenRequest b acct key).url ≠ b ++ "v1/user/" ++ uid := by
  intro h
  simp only [Avidbase.tokenRequest] at h
  have hd := congrArg String.data h
  simp only [String.data_append] at hd
  simp only [List.append_assoc] at hd
  have h2 := congrArg (List.drop b.data.length) hd
  rw [List.drop_left, List.drop_left] at h2
  have h3 := congrArg (List.take 6) h2
  rw [List.take_append_of_le_length (by decide),
    List.take_append_of_le_length (by decide)] at h3
  exact absurd h3 (by decide)

/-- C2: when no machine token is held and acquisition fails, every
resource operation of both variants returns immediately — its request
log is exactly the acquisition attempt’s log, which holds at most the
one token request and in particular no request whose URL is the
operation’s own resource URL; the state is unchanged, the strict
variant returns a non-nil error with a zero value, and the lenient
variant returns a zero value. -/
theorem C2_short_circuit
    (envA : Avidbase.Env) (envG : GoAuth.Env)
    (sA : Avidbase.State) (sG : GoAuth.State)
    (userId : String) (uA : Avidbase.User) (uG : GoAuth.User)
    (hA0 : sA.machineAccessToken = none)
    (hAg : (Avidbase.generateMachineAccessToken envA sA).ok = false)
    (hG0 : sG.machineAccessToken = none)
    (hGg : (GoAuth.generateMachineAccessToken envG sG).ok = false) :
    Avidbase.ListUsers envA sA =
      ⟨some ([],
          some "invalid api key or unable to generate machine access token"),
        sA, (Avidbase.generateMachineAccessToken envA sA).requests⟩ ∧
    Avidbase.GetUser envA sA userId =
      ⟨some (Avidbase.zeroIdentity,
          some "invalid api key or unable to generate machine access token"),
        sA, (Avidbase.generateMachineAccessToken envA sA).requests⟩ ∧
    Avidbase.CreateUser envA sA uA =
      ⟨some (Avidbase.zeroIdentity,
          some "invalid api key or unable to generate machine access token"),
        sA, (Avidbase.generateMachineAccessToken envA sA).requests⟩ ∧
    Avidbase.UpdateUser envA sA userId uA =
      ⟨some (Avidbase.zeroIdentity,
          some "invalid api key or unable to generate machine access token"),
        sA, (Avidbase.generateMachineAccessToken envA sA).requests⟩ ∧
    GoAuth.ListUsers envG sG =
      ⟨some [], sG, (GoAuth.generateMachineAccessToken envG sG).requests⟩ ∧
    GoAuth.LoadUser envG sG userId =
      ⟨some GoAuth.zeroOutputUser, sG,
        (GoAuth.generateMachineAccessToken envG sG).requests⟩ ∧
    GoAuth.CreateUser envG sG uG =
      ⟨some false, sG, (GoAuth.generateMachineAccessToken envG sG).requests⟩ ∧
    GoAuth.UpdateUser envG sG userId uG =
      ⟨some false, sG, (GoAuth.generateMachineAccessToken envG sG).requests⟩ ∧
    (∀ r ∈ (Avidbase.generateMachineAccessToken envA sA).requests,
      ∃ acct key, r = Avidbase.tokenRequest sA.baseUrl acct key) ∧
    (∀ r ∈ (GoAuth.generateMachineAccessToken envG sG).requests,
      ∃ acct key, r = Avidbase.tokenRequest sG.baseUrl acct key) ∧
    (∀ r ∈ (Avidbase.ListUsers envA sA).requests,
      r.url ≠ sA.baseUrl ++ "v1/user") ∧
    (∀ r ∈ (Avidbase.GetUser envA sA userId).requests,
      r.url ≠ sA.baseUrl ++ "v1/user/" ++ userId) ∧
    (∀ r ∈ (Avidbase.CreateUser envA sA uA).requests,
      r.url ≠ sA.baseUrl ++ "v1/user") ∧
    (∀ r ∈ (Avidbase.UpdateUser envA sA userId uA).requests,
      r.url ≠ sA.baseUrl ++ "v1/user/" ++ userId) ∧
    (∀ r ∈ (GoAuth.ListUsers envG sG).requests,
      r.url ≠ sG.baseUrl ++ "v1/user") ∧
    (∀ r ∈ (GoAuth.LoadUser envG sG userId).requests,
      r.url ≠ sG.baseUrl ++ "v1/user/" ++ userId) ∧
    (∀ r ∈ (GoAuth.CreateUser envG sG uG).requests,
      r.url ≠ sG.baseUrl ++ "v1/user") ∧
    (∀ r ∈ (GoAuth.UpdateUser envG sG userId uG).requests,
      r.url ≠ sG.baseUrl ++ "v1/user/" ++ userId) := by
  have hvA := avidIsValid_of_none_fail envA sA hA0 hAg
  have hvG := goIsValid_of_none_fail envG sG hG0 hGg
  have hL1 : Avidbase.ListUsers envA sA =
      ⟨some ([],
          some "invalid api key or unable to generate machine access token"),
        sA, (Avidbase.generateMachineAccessToken envA sA).requests⟩ := by
    unfold Avidbase.ListUsers; rw [hvA]; rfl
  have hL2 : Avidbase.GetUser envA sA userId =
      ⟨some (Avidbase.zeroIdentity,
          some "invalid api key or unable to generate machine access token"),
        sA, (Avidbase.generateMachineAccessToken envA sA).requests⟩ := by
    unfold Avidbase.GetUser; rw [hvA]; rfl
  have hL3 : Avidbase.CreateUser envA sA uA =
      ⟨some (Avidbase.zeroIdentity,
          some "invalid api key or unable to generate machine access token"),
        sA, (Avidbase.generateMachineAccessToken envA sA).requests⟩ := by
    unfold Avidbase.CreateUser; rw [hvA]; rfl
  have hL4 : Avidbase.UpdateUser envA sA userId uA =
      ⟨some (Avidbase.zeroIdentity,
          some "invalid api key or unable to generate machine access token"),
        sA, (Avidbase.generateMachineAccessToken envA sA).requests⟩ := by
    unfold Avidbase.UpdateUser; rw [hvA]; rfl
  have hL5 : GoAuth.ListUsers envG sG =
      ⟨some [], sG, (GoAuth.generateMachineAccessToken envG sG).requests⟩ := by
    unfold GoAuth.ListUsers; rw [hvG]; rfl
  have hL6 : GoAuth.LoadUser envG sG userId =
      ⟨some GoAuth.zeroOutputUser, sG,
        (GoAuth.generateMachineAccessToken envG sG).requests⟩ := by
    unfold GoAuth.LoadUser; rw [hvG]; rfl
  have hL7 : GoAuth.CreateUser envG sG uG =
      ⟨some false, sG,
        (GoAuth.generateMachineAccessToken envG sG).requests⟩ := by
    unfold GoAuth.CreateUser; rw [hvG]; rfl
  have hL8 : GoAuth.UpdateUser envG sG userId uG =
      ⟨some false, sG,
        (GoAuth.generateMachineAccessToken envG sG).requests⟩ := by
    unfold GoAuth.UpdateUser; rw [hvG]; rfl
  have hAreq : ∀ r ∈ (Avidbase.generateMachineAccessToken envA sA).requests,
      ∃ acct key, r = Avidbase.tokenRequest sA.baseUrl acct key := by
    intro r hr
    rcases avidGen_requests envA sA with hreq | ⟨acct, key, _, _, hreq⟩
    · rw [hreq] at hr; cases hr
    · rw [hreq] at hr
      simp only [List.mem_singleton] at hr
      exact ⟨acct, key, hr⟩
  have hGreq : ∀ r ∈ (GoAuth.generateMachineAccessToken envG sG).requests,
      ∃ acct key, r = Avidbase.tokenRequest sG.baseUrl acct key := by
    intro r hr
    rcases goGen_requests envG sG with hreq | ⟨acct, key, _, _, hreq⟩
    · rw [hreq] at hr; cases hr
    · rw [hreq] at hr
      simp only [List.mem_singleton] at hr
      exact ⟨acct, key, hr⟩
  refine ⟨hL1, hL2, hL3, hL4, hL5, hL6, hL7, hL8, hAreq, hGreq,
    ?_, ?_, ?_, ?_, ?_, ?_, ?_, ?_⟩
  · intro r hr
    rw [hL1] at hr
    obtain ⟨acct, key, rfl⟩ := hAreq r hr
    exact tokenUrl_ne_listUrl sA.baseUrl acct key
  · intro r hr
    rw [hL2] at hr
    obtain ⟨acct, key, rfl⟩ := hAreq r hr
    exact tokenUrl_ne_itemUrl sA.baseUrl acct key userId
  · intro r hr
    rw [hL3] at hr
    obtain ⟨acct, key, rfl⟩ := hAreq r hr
    exact tokenUrl_ne_listUrl sA.baseUrl acct key
  · intro r hr
    rw [hL4] at hr
    obtain ⟨acct, key, rfl⟩ := hAreq r hr
    exact tokenUrl_ne_itemUrl sA.baseUrl acct key userId
  · intro r hr
    rw [hL5] at hr
    obtain ⟨acct, key, rfl⟩ := hGreq r hr
    exact tokenUrl_ne_listUrl sG.baseUrl acct key
  · intro r hr
    rw [hL6] at hr
    obtain ⟨acct, key, rfl⟩ := hGreq r hr
    exact tokenUrl_ne_itemUrl sG.baseUrl acct key userId
  · intro r hr
    rw [hL7] at hr
    obtain ⟨acct, key, rfl⟩ := hGreq r hr
    exact tokenUrl_ne_listUrl sG.baseUrl acct key
  · intro r hr
    rw [hL8] at hr
    obtain ⟨acct, key, rfl⟩ := hGreq r hr
    exact tokenUrl_ne_itemUrl sG.baseUrl acct key userId

/-- C2 witness: a concrete token-less state with a failing transport;
`ListUsers` returns the empty list and the token error. -/
theorem C2_short_circuit_witness :
    (stateA none).machineAccessToken = none ∧
    Avidbase.ListUsers (constEnvA none none none none) (stateA none) =
      ⟨some ([],
          some "invalid api key or unable to generate machine access token"),
        stateA none,
        (Avidbase.generateMachineAccessToken
          (constEnvA none none none none) (stateA none)).requests⟩ :=
  ⟨rfl,
    (C2_short_circuit (constEnvA none none none none)
      (constEnvG none none none none) (stateA none) (stateG none none)
      "u1" ⟨none, none, none, none, none, []⟩ ⟨"", "", "", ""⟩
      rfl rfl rfl rfl).1⟩

/-- C10: in the lenient variant, whenever machine-token validation
succeeds (the token is held or freshly acquired) but no user access
token has ever been stored, every resource operation dereferences the
nil `userAccessToken` pointer when setting the request header: the
panic branch is reached and no value is returned. -/
theorem C10_nil_user_token_panic
    (env : GoAuth.Env) (s : GoAuth.State) (userId : String) (u : GoAuth.User)
    (hu : s.userAccessToken = none)
    (hv : (GoAuth.isValidMachineAccessToken env s).ok = true)
    (hn : ∀ m url, env.newRequestOk m url = true) :
    (GoAuth.ListUsers env s).ret = none ∧
    (GoAuth.LoadUser env s userId).ret = none ∧
    (GoAuth.CreateUser env s u).ret = none ∧
    (GoAuth.UpdateUser env s userId u).ret = none := by
  have huser : (GoAuth.isValidMachineAccessToken env s).state.userAccessToken
      = none := by
    rw [goIsValid_userToken env s, hu]
  refine ⟨?_, ?_, ?_, ?_⟩
  · unfold GoAuth.ListUsers
    simp only [hv, if_true, hn, huser]
  · unfold GoAuth.LoadUser
    simp only [hv, if_true, hn, huser]
  · unfold GoAuth.CreateUser
    simp only [hv, if_true, hn, huser]
  · unfold GoAuth.UpdateUser
    simp only [hv, if_true, hn, huser]

/-- C10 witness: machine token held, user token never set; `ListUsers`
panics (returns no value). -/
theorem C10_nil_user_token_panic_witness :
    (stateG (some "M") none).userAccessToken = none ∧
    (GoAuth.ListUsers (constEnvG none none none none)
      (stateG (some "M") none)).ret = none :=
  ⟨rfl,
    (C10_nil_user_token_panic (constEnvG none none none none)
      (stateG (some "M") none) "u1" ⟨"", "", "", ""⟩
      rfl rfl (fun _ _ => rfl)).1⟩

/-- Strict token generation fails exactly when credentials are absent,
the transport errors, the status is not 200, or the header is empty. -/
theorem avidGen_false_iff (env : Avidbase.Env) (s : Avidbase.State) :
    (Avidbase.generateMachineAccessToken env s).ok = false ↔
      s.accountId = none ∨ s.apiKey = none ∨
      (∃ acct key, s.accountId = some acct ∧ s.apiKey = some key ∧
        (env.http (Avidbase.tokenRequest s.baseUrl acct key) = none ∨
         ∃ resp,
           env.http (Avidbase.tokenRequest s.baseUrl acct key) = some resp ∧
           (resp.statusCode ≠ 200 ∨ resp.accessTokenHeader = ""))) := by
  rw [← Bool.not_eq_true, avidGen_ok_iff]
  obtain ⟨b, a, k, m⟩ := s
  cases a with
  | none => simp
  | some acct =>
    cases k with
    | none => simp
    | some key =>
      simp only [Option.some.injEq, not_exists]
      constructor
      · intro hno
        refine Or.inr (Or.inr ⟨acct, key, rfl, rfl, ?_⟩)
        cases hr : env.http (Avidbase.tokenRequest b acct key) with
        | none => exact Or.inl rfl
        | some resp =>
          refine Or.inr ⟨resp, rfl, ?_⟩
          by_contra hc
          push_neg at hc
          exact hno acct key resp ⟨rfl, rfl, hr, hc.1, hc.2⟩
      · rintro (h | h | ⟨a2, k2, ha2, hk2, hbad⟩)
        · cases h
        · cases h
        · obtain rfl := ha2.symm
          obtain rfl := hk2.symm
          intro a3 k3 resp ⟨ha3, hk3, hr3, hst3, hh3⟩
          obtain rfl := ha3.symm
          obtain rfl := hk3.symm
          rcases hbad with hnone | ⟨r2, hr2, hbad2⟩
          · rw [hr3] at hnone; cases hnone
          · rw [hr3] at hr2
            obtain rfl : resp = r2 := by injection hr2
            rcases hbad2 with h2 | h2
            · exact h2 hst3
            · exact hh3 h2

/-- Lenient token generation fails exactly when credentials are absent,
the transport errors, the status is not 200, or the header is empty. -/
theorem goGen_false_iff (env : GoAuth.Env) (s : GoAuth.State) :
    (GoAuth.generateMachineAccessToken env s).ok = false ↔
      s.accountId = none ∨ s.apiKey = none ∨
      (∃ acct key, s.accountId = some acct ∧ s.apiKey = some key ∧
        (env.http (Avidbase.tokenRequest s.baseUrl acct key) = none ∨
         ∃ resp,
           env.http (Avidbase.tokenRequest s.baseUrl acct key) = some resp ∧
           (resp.statusCode ≠ 200 ∨ resp.accessTokenHeader = ""))) := by
  rw [← Bool.not_eq_true, goGen_ok_iff]
  obtain ⟨b, a, k, m, u⟩ := s
  cases a with
  | none => simp
  | some acct =>
    cases k with
    | none => simp
    | some key =>
      simp only [Option.some.injEq, not_exists]
      constructor
      · intro hno
        refine Or.inr (Or.inr ⟨acct, key, rfl, rfl, ?_⟩)
        cases hr : env.http (Avidbase.tokenRequest b acct key) with
        | none => exact Or.inl rfl
        | some resp =>
          refine Or.inr ⟨resp, rfl, ?_⟩
          by_contra hc
          push_neg at hc
          exact hno acct key resp ⟨rfl, rfl, hr, hc.1, hc.2⟩
      · rintro (h | h | ⟨a2, k2, ha2, hk2, hbad⟩)
        · cases h
        · cases h
        · obtain rfl := ha2.symm
          obtain rfl := hk2.symm
          intro a3 k3 resp ⟨ha3, hk3, hr3, hst3, hh3⟩
          obtain rfl := ha3.symm
          obtain rfl := hk3.symm
          rcases hbad with hnone | ⟨r2, hr2, hbad2⟩
          · rw [hr3] at hnone; cases hnone
          · rw [hr3] at hr2
            obtain rfl : resp = r2 := by injection hr2
            rcases hbad2 with h2 | h2
            · exact h2 hst3
            · exact hh3 h2

/-- C4: in both variants, `generateMachineAccessToken` returns false
exactly when the credentials are absent, the request fails, the status
is not OK, or the `Access-Token` header is empty; in every other case
it stores the header value as the machine token (issuing exactly the
one token request) and returns true; on failure nothing is stored. -/
theorem C4_generate_characterization
    (envA : Avidbase.Env) (sA : Avidbase.State)
    (envG : GoAuth.Env) (sG : GoAuth.State) :
    ((Avidbase.generateMachineAccessToken envA sA).ok = false ↔
      sA.accountId = none ∨ sA.apiKey = none ∨
      (∃ acct key, sA.accountId = some acct ∧ sA.apiKey = some key ∧
        (envA.http (Avidbase.tokenRequest sA.baseUrl acct key) = none ∨
         ∃ resp,
           envA.http (Avidbase.tokenRequest sA.baseUrl acct key) = some resp ∧
           (resp.statusCode ≠ 200 ∨ resp.accessTokenHeader = "")))) ∧
    (∀ acct key resp, sA.accountId = some acct → sA.apiKey = some key →
      envA.http (Avidbase.tokenRequest sA.baseUrl acct key) = some resp →
      resp.statusCode = 200 → resp.accessTokenHeader ≠ "" →
      Avidbase.generateMachineAccessToken envA sA =
        ⟨true, { sA with machineAccessToken := some resp.accessTokenHeader },
          [Avidbase.tokenRequest sA.baseUrl acct key]⟩) ∧
    ((Avidbase.generateMachineAccessToken envA sA).ok = false →
      (Avidbase.generateMachineAccessToken envA sA).state = sA) ∧
    ((GoAuth.generateMachineAccessToken envG sG).ok = false ↔
      sG.accountId = none ∨ sG.apiKey = none ∨
      (∃ acct key, sG.accountId = some acct ∧ sG.apiKey = some key ∧
        (envG.http (Avidbase.tokenRequest sG.baseUrl acct key) = none ∨
         ∃ resp,
           envG.http (Avidbase.tokenRequest sG.baseUrl acct key) = some resp ∧
           (resp.statusCode ≠ 200 ∨ resp.accessTokenHeader = "")))) ∧
    (∀ acct key resp, sG.accountId = some acct → sG.apiKey = some key →
      envG.http (Avidbase.tokenRequest sG.baseUrl acct key) = some resp →
      resp.statusCode = 200 → resp.accessTokenHeader ≠ "" →
      GoAuth.generateMachineAccessToken envG sG =
        ⟨true, { sG with machineAccessToken := some resp.accessTokenHeader },
          [Avidbase.tokenRequest sG.baseUrl acct key]⟩) ∧
    ((GoAuth.generateMachineAccessToken envG sG).ok = false →
      (GoAuth.generateMachineAccessToken envG sG).state = sG) :=
  ⟨avidGen_false_iff envA sA,
    fun acct key resp ha hk hr hst hh =>
      avidGen_ok_result envA sA acct key resp ha hk hr hst hh,
    avidGen_not_ok_state envA sA,
    goGen_false_iff envG sG,
    fun acct key resp ha hk hr hst hh =>
      goGen_ok_result envG sG acct key resp ha hk hr hst hh,
    goGen_not_ok_state envG sG⟩

/-- C4 witness: a concrete 200-with-header response; generation stores
the header token and issues exactly the token request. -/
theorem C4_generate_characterization_witness :
    (stateA none).accountId = some "acct" ∧
    Avidbase.generateMachineAccessToken
        (constEnvA (some ⟨200, "T", "", true⟩) none none none)
        (stateA none) =
      ⟨true, stateA (some "T"),
        [Avidbase.tokenRequest "https://api.avidbase.com/" "acct" "key"]⟩ :=
  ⟨rfl,
    (C4_generate_characterization
        (constEnvA (some ⟨200, "T", "", true⟩) none none none) (stateA none)
        (constEnvG (some ⟨200, "T", "", true⟩) none none none)
        (stateG none none)).2.1
      "acct" "key" ⟨200, "T", "", true⟩ rfl rfl rfl rfl (by decide)⟩

/-- C5: whenever the transport answers every request with a non-OK
status, every operation of both variants returns a zero-valued/empty
result, never one populated from the body; each strict operation
additionally returns the non-nil error built from the status code,
while each lenient operation returns its zero value with no error
signal. -/
theorem C5_non_ok_zero_result
    (envA : Avidbase.Env) (sA : Avidbase.State)
    (envG : GoAuth.Env) (sG : GoAuth.State)
    (resp : HttpResponse) (acct key mt ut e p userId : String)
    (uA : Avidbase.User) (uG : GoAuth.User) (bodyA : String)
    (hst : resp.statusCode ≠ 200)
    (hhttpA : envA.http = fun _ => some resp)
    (hnA : envA.newRequestOk = fun _ _ => true)
    (hmarA : envA.marshalUser uA = some bodyA)
    (haA : sA.accountId = some acct)
    (hmA : sA.machineAccessToken = some mt)
    (he : e ≠ "") (hp : p ≠ "")
    (hhttpG : envG.http = fun _ => some resp)
    (hnG : envG.newRequestOk = fun _ _ => true)
    (hkG : sG.apiKey = some key)
    (hmG : sG.machineAccessToken = some mt)
    (huG : sG.userAccessToken = some ut) :
    ((Avidbase.Login envA sA e p).accessToken = "" ∧
     (Avidbase.Login envA sA e p).output = Avidbase.zeroAuthOutput ∧
     (Avidbase.Login envA sA e p).err = some
       (if resp.readAllOk then
          resp.body ++ ", status code: " ++ toString resp.statusCode
        else
          "authentication failed, status code: " ++
            toString resp.statusCode)) ∧
    (Avidbase.ListUsers envA sA).ret = some ([], some
      (if resp.readAllOk then
        resp.body ++ ", status code: " ++ toString resp.statusCode
       else "list users failed, status code: " ++ toString resp.statusCode)) ∧
    (Avidbase.GetUser envA sA userId).ret = some (Avidbase.zeroIdentity, some
      (if resp.readAllOk then
        resp.body ++ ", status code: " ++ toString resp.statusCode
       else "get user failed, status code: " ++ toString resp.statusCode)) ∧
    (Avidbase.CreateUser envA sA uA).ret = some (Avidbase.zeroIdentity, some
      (if resp.readAllOk then
        resp.body ++ ", status code: " ++ toString resp.statusCode
       else "create user failed, status code: " ++ toString resp.statusCode)) ∧
    (Avidbase.UpdateUser envA sA userId uA).ret =
      some (Avidbase.zeroIdentity, some
        (if resp.readAllOk then
          resp.body ++ ", status code: " ++ toString resp.statusCode
         else
          "update user failed, status code: " ++ toString resp.statusCode)) ∧
    (GoAuth.Login envG sG e p).output = GoAuth.zeroAuthOutput ∧
    (GoAuth.ListUsers envG sG).ret = some [] ∧
    (GoAuth.LoadUser envG sG userId).ret = some GoAuth.zeroOutputUser ∧
    (GoAuth.CreateUser envG sG uG).ret = some false ∧
    (GoAuth.UpdateUser envG sG userId uG).ret = some false := by
  have hvA := avidIsValid_of_some envA sA mt hmA
  have hvG := goIsValid_of_some envG sG mt hmG
  refine ⟨?_, ?_, ?_, ?_, ?_, ?_, ?_, ?_, ?_, ?_⟩
  · unfold Avidbase.Login
    rw [haA]
    simp [he, hp, hhttpA, hst]
  · unfold Avidbase.ListUsers
    rw [hvA]
    simp [hnA, hmA, hhttpA, hst]
  · unfold Avidbase.GetUser
    rw [hvA]
    simp [hnA, hmA, hhttpA, hst]
  · unfold Avidbase.CreateUser
    rw [hvA]
    simp [hnA, hmA, hmarA, hhttpA, hst]
  · unfold Avidbase.UpdateUser
    rw [hvA]
    simp [hnA, hmA, hmarA, hhttpA, hst]
  · unfold GoAuth.Login
    rw [hkG]
    simp [he, hp, hhttpG, hst]
  · unfold GoAuth.ListUsers
    rw [hvG]
    simp [hnG, huG, hhttpG, hst]
  · unfold GoAuth.LoadUser
    rw [hvG]
    simp [hnG, huG, hhttpG, hst]
  · unfold GoAuth.CreateUser
    rw [hvG]
    simp [hnG, huG, hhttpG, hst]
  · unfold GoAuth.UpdateUser
    rw [hvG]
    simp [hnG, huG, hhttpG, hst]

/-- C5 witness: a concrete 403 response with readable body `denied`;
strict `ListUsers` returns the empty list and the wrapped status error. -/
theorem C5_non_ok_zero_result_witness :
    (403 : Nat) ≠ 200 ∧
    (Avidbase.ListUsers
        (constEnvA (some ⟨403, "", "denied", true⟩) none none none)
        (stateA (some "M"))).ret =
      some ([], some "denied, status code: 403") :=
  ⟨by decide,
    (C5_non_ok_zero_result
        (constEnvA (some ⟨403, "", "denied", true⟩) none none none)
        (stateA (some "M"))
        (constEnvG (some ⟨403, "", "denied", true⟩) none none none)
        (stateG (some "M") (some "U"))
        ⟨403, "", "denied", true⟩ "acct" "key" "M" "U" "e@x.io" "pw" "u1"
        ⟨none, none, none, none, none, []⟩ ⟨"", "", "", ""⟩ ""
        (by decide) rfl rfl rfl rfl rfl
        (by decide) (by decide) rfl rfl rfl rfl rfl).2.1⟩


/-- The strict resource operations mutate state only through token
validation: `ListUsers` returns the validation state unchanged. -/
theorem avidListUsers_state (env : Avidbase.Env) (s : Avidbase.State) :
    (Avidbase.ListUsers env s).state =
      (Avidbase.isValidMachineAccessToken env s).state := by
  unfold Avidbase.ListUsers
  by_cases hok : (Avidbase.isValidMachineAccessToken env s).ok = true
  · simp only [hok, if_true]
    repeat' (first | rfl | split)
  · simp only [Bool.not_eq_true] at hok
    simp [hok]

/-- Strict `GetUser` returns the validation state unchanged. -/
theorem avidGetUser_state (env : Avidbase.Env) (s : Avidbase.State)
    (userId : String) :
    (Avidbase.GetUser env s userId).state =
      (Avidbase.isValidMachineAccessToken env s).state := by
  unfold Avidbase.GetUser
  by_cases hok : (Avidbase.isValidMachineAccessToken env s).ok = true
  · simp only [hok, if_true]
    repeat' (first | rfl | split)
  · simp only [Bool.not_eq_true] at hok
    simp [hok]

/-- Strict `CreateUser` returns the validation state unchanged. -/
theorem avidCreateUser_state (env : Avidbase.Env) (s : Avidbase.State)
    (u : Avidbase.User) :
    (Avidbase.CreateUser env s u).state =
      (Avidbase.isValidMachineAccessToken env s).state := by
  unfold Avidbase.CreateUser
  by_cases hok : (Avidbase.isValidMachineAccessToken env s).ok = true
  · simp only [hok, if_true]
    repeat' (first | rfl | split)
  · simp only [Bool.not_eq_true] at hok
    simp [hok]

/-- Strict `UpdateUser` returns the validation state unchanged. -/
theorem avidUpdateUser_state (env : Avidbase.Env) (s : Avidbase.State)
    (userId : String) (u : Avidbase.User) :
    (Avidbase.UpdateUser env s userId u).state =
      (Avidbase.isValidMachineAccessToken env s).state := by
  unfold Avidbase.UpdateUser
  by_cases hok : (Avidbase.isValidMachineAccessToken env s).ok = true
  · simp only [hok, if_true]
    repeat' (first | rfl | split)
  · simp only [Bool.not_eq_true] at hok
    simp [hok]

/-- Strict `Login` never modifies the state: the header token is
returned to the caller, not stored. -/
theorem avidLogin_state (env : Avidbase.Env) (s : Avidbase.State)
    (e p : String) : (Avidbase.Login env s e p).state = s := by
  simp only [Avidbase.Login]
  repeat' (first | rfl | split)

/-- Lenient `CreateUser` returns the validation state unchanged: it
never stores the response header token. -/
theorem goCreateUser_state (env : GoAuth.Env) (s : GoAuth.State)
    (u : GoAuth.User) :
    (GoAuth.CreateUser env s u).state =
      (GoAuth.isValidMachineAccessToken env s).state := by
  unfold GoAuth.CreateUser
  by_cases hok : (GoAuth.isValidMachineAccessToken env s).ok = true
  · simp only [hok, if_true]
    repeat' (first | rfl | split)
  · simp only [Bool.not_eq_true] at hok
    simp [hok]

/-- Lenient `UpdateUser` returns the validation state unchanged: it
never stores the response header token. -/
theorem goUpdateUser_state (env : GoAuth.Env) (s : GoAuth.State)
    (userId : String) (u : GoAuth.User) :
    (GoAuth.UpdateUser env s userId u).state =
      (GoAuth.isValidMachineAccessToken env s).state := by
  unfold GoAuth.UpdateUser
  by_cases hok : (GoAuth.isValidMachineAccessToken env s).ok = true
  · simp only [hok, if_true]
    repeat' (first | rfl | split)
  · simp only [Bool.not_eq_true] at hok
    simp [hok]

/-- Lenient `ListUsers` run in a state holding both tokens: it sends
the user token, and any non-empty `Access-Token` response header is
stored as the new user token regardless of the status code. -/
theorem goListUsers_refresh (env : GoAuth.Env) (s : GoAuth.State)
    (mt ut : String) (resp : HttpResponse)
    (hm : s.machineAccessToken = some mt)
    (hu : s.userAccessToken = some ut)
    (hn : env.newRequestOk "GET" (s.baseUrl ++ "v1/user") = true)
    (hr : env.http ⟨"GET", s.baseUrl ++ "v1/user", some ut, none⟩ = some resp)
    (hh : resp.accessTokenHeader ≠ "") :
    (GoAuth.ListUsers env s).state.userAccessToken =
      some resp.accessTokenHeader ∧
    (GoAuth.ListUsers env s).requests =
      [⟨"GET", s.baseUrl ++ "v1/user", some ut, none⟩] := by
  unfold GoAuth.ListUsers
  rw [goIsValid_of_some env s mt hm]
  simp only [hn, if_true, hu]
  rw [hr]
  by_cases hst : resp.statusCode = 200 <;> simp [hst, hh]

/-- Lenient `LoadUser`: same header-refresh behaviour as `ListUsers`. -/
theorem goLoadUser_refresh (env : GoAuth.Env) (s : GoAuth.State)
    (userId mt ut : String) (resp : HttpResponse)
    (hm : s.machineAccessToken = some mt)
    (hu : s.userAccessToken = some ut)
    (hn : env.newRequestOk "GET" (s.baseUrl ++ "v1/user/" ++ userId) = true)
    (hr : env.http ⟨"GET", s.baseUrl ++ "v1/user/" ++ userId, some ut, none⟩ =
      some resp)
    (hh : resp.accessTokenHeader ≠ "") :
    (GoAuth.LoadUser env s userId).state.userAccessToken =
      some resp.accessTokenHeader := by
  unfold GoAuth.LoadUser
  rw [goIsValid_of_some env s mt hm]
  simp only [hn, if_true, hu]
  rw [hr]
  by_cases hst : resp.statusCode = 200 <;> simp [hst, hh]

/-- Lenient `Login`: a non-empty `Access-Token` response header is
stored as the user token regardless of the status code. -/
theorem goLogin_refresh (env : GoAuth.Env) (s : GoAuth.State)
    (key e p : String) (resp : HttpResponse)
    (hk : s.apiKey = some key) (he : e ≠ "") (hp : p ≠ "")
    (hr : env.http (Avidbase.authRequest s.baseUrl (marshalStringMap
      [("api_key", key), ("email", e), ("password", p)])) = some resp)
    (hh : resp.accessTokenHeader ≠ "") :
    (GoAuth.Login env s e p).state.userAccessToken =
      some resp.accessTokenHeader := by
  unfold GoAuth.Login
  rw [hk]
  simp only [he, hp, or_self, if_false]
  rw [hr]
  simp [hh]

/-- Lenient `ListUsers` in a state already holding both tokens issues
exactly one request, carrying the held user token as its header. -/
theorem goListUsers_sends_user_token (env : GoAuth.Env) (s : GoAuth.State)
    (mt h : String)
    (hm : s.machineAccessToken = some mt)
    (hu : s.userAccessToken = some h)
    (hn : env.newRequestOk "GET" (s.baseUrl ++ "v1/user") = true) :
    (GoAuth.ListUsers env s).requests =
      [⟨"GET", s.baseUrl ++ "v1/user", some h, none⟩] := by
  unfold GoAuth.ListUsers
  rw [goIsValid_of_some env s mt hm]
  simp only [hn, if_true, hu]
  cases hr : env.http ⟨"GET", s.baseUrl ++ "v1/user", some h, none⟩ with
  | none => simp [hr]
  | some resp => by_cases hst : resp.statusCode = 200 <;> simp [hr, hst]

/-- C1 counterexample: lenient `CreateUser` receives a response with
non-empty header `Access-Token: T2` (status 200), yet the stored user
token remains `T1` and the machine token remains `M` — the claimed
unconditional overwrite does not happen for this operation. -/
theorem C1_counterexample :
    (⟨200, "T2", "", true⟩ : HttpResponse).accessTokenHeader ≠ "" ∧
    (GoAuth.CreateUser (constEnvG (some ⟨200, "T2", "", true⟩) none none none)
        (stateG (some "M") (some "T1")) ⟨"", "", "", ""⟩).ret = some true ∧
    (GoAuth.CreateUser (constEnvG (some ⟨200, "T2", "", true⟩) none none none)
        (stateG (some "M") (some "T1")) ⟨"", "", "", ""⟩).state =
      stateG (some "M") (some "T1") := by
  refine ⟨by decide, rfl, rfl⟩

/-- C1 (amended): in the lenient variant, `Login`, `ListUsers` and
`LoadUser` overwrite the stored user token with any non-empty
`Access-Token` response header regardless of the status code, and a
call made afterwards sends the new token; lenient `CreateUser` and
`UpdateUser` never update the stored tokens from the response header,
and no strict-variant operation stores a header token at all (strict
`Login` returns it to the caller; strict state changes only through
token acquisition). -/
theorem C1_token_refresh_amended :
    (∀ env : GoAuth.Env, ∀ s : GoAuth.State, ∀ mt ut : String,
      ∀ resp : HttpResponse,
      s.machineAccessToken = some mt → s.userAccessToken = some ut →
      env.newRequestOk "GET" (s.baseUrl ++ "v1/user") = true →
      env.http ⟨"GET", s.baseUrl ++ "v1/user", some ut, none⟩ = some resp →
      resp.accessTokenHeader ≠ "" →
      (GoAuth.ListUsers env s).state.userAccessToken =
        some resp.accessTokenHeader) ∧
    (∀ env : GoAuth.Env, ∀ s : GoAuth.State, ∀ userId mt ut : String,
      ∀ resp : HttpResponse,
      s.machineAccessToken = some mt → s.userAccessToken = some ut →
      env.newRequestOk "GET" (s.baseUrl ++ "v1/user/" ++ userId) = true →
      env.http ⟨"GET", s.baseUrl ++ "v1/user/" ++ userId, some ut, none⟩ =
        some resp →
      resp.accessTokenHeader ≠ "" →
      (GoAuth.LoadUser env s userId).state.userAccessToken =
        some resp.accessTokenHeader) ∧
    (∀ env : GoAuth.Env, ∀ s : GoAuth.State, ∀ key e p : String,
      ∀ resp : HttpResponse,
      s.apiKey = some key → e ≠ "" → p ≠ "" →
      env.http (Avidbase.authRequest s.baseUrl (marshalStringMap
        [("api_key", key), ("email", e), ("password", p)])) = some resp →
      resp.accessTokenHeader ≠ "" →
      (GoAuth.Login env s e p).state.userAccessToken =
        some resp.accessTokenHeader) ∧
    (∀ env : GoAuth.Env, ∀ s : GoAuth.State, ∀ mt h : String,
      s.machineAccessToken = some mt → s.userAccessToken = some h →
      env.newRequestOk "GET" (s.baseUrl ++ "v1/user") = true →
      (GoAuth.ListUsers env s).requests =
        [⟨"GET", s.baseUrl ++ "v1/user", some h, none⟩]) ∧
    (∀ env : GoAuth.Env, ∀ s : GoAuth.State, ∀ userId : String,
      ∀ u : GoAuth.User,
      (GoAuth.CreateUser env s u).state =
        (GoAuth.isValidMachineAccessToken env s).state ∧
      (GoAuth.UpdateUser env s userId u).state =
        (GoAuth.isValidMachineAccessToken env s).state) ∧
    (∀ env : Avidbase.Env, ∀ s : Avidbase.State, ∀ userId e p : String,
      ∀ u : Avidbase.User,
      (Avidbase.Login env s e p).state = s ∧
      (Avidbase.ListUsers env s).state =
        (Avidbase.isValidMachineAccessToken env s).state ∧
      (Avidbase.GetUser env s userId).state =
        (Avidbase.isValidMachineAccessToken env s).state ∧
      (Avidbase.CreateUser env s u).state =
        (Avidbase.isValidMachineAccessToken env s).state ∧
      (Avidbase.UpdateUser env s userId u).state =
        (Avidbase.isValidMachineAccessToken env s).state) :=
  ⟨fun env s mt ut resp hm hu hn hr hh =>
      (goListUsers_refresh env s mt ut resp hm hu hn hr hh).1,
    fun env s userId mt ut resp hm hu hn hr hh =>
      goLoadUser_refresh env s userId mt ut resp hm hu hn hr hh,
    fun env s key e p resp hk he hp hr hh =>
      goLogin_refresh env s key e p resp hk he hp hr hh,
    fun env s mt h hm hu hn =>
      goListUsers_sends_user_token env s mt h hm hu hn,
    fun env s userId u =>
      ⟨goCreateUser_state env s u, goUpdateUser_state env s userId u⟩,
    fun env s userId e p u =>
      ⟨avidLogin_state env s e p, avidListUsers_state env s,
        avidGetUser_state env s userId, avidCreateUser_state env s u,
        avidUpdateUser_state env s userId u⟩⟩

/-- C1 witness: a concrete lenient `ListUsers` call whose response
carries header `T2` with status 500; the stored user token becomes
`T2`, and the next call sends `T2`. -/
theorem C1_token_refresh_amended_witness :
    (stateG (some "M") (some "T1")).userAccessToken = some "T1" ∧
    (GoAuth.ListUsers (constEnvG (some ⟨500, "T2", "", true⟩) none none none)
        (stateG (some "M") (some "T1"))).state.userAccessToken = some "T2" ∧
    (GoAuth.ListUsers (constEnvG (some ⟨500, "T2", "", true⟩) none none none)
        ((GoAuth.ListUsers
            (constEnvG (some ⟨500, "T2", "", true⟩) none none none)
            (stateG (some "M") (some "T1"))).state)).requests =
      [⟨"GET", "https://dev-api.avidbase.com/v1/user", some "T2", none⟩] :=
  ⟨rfl,
    (C1_token_refresh_amended.1
      (constEnvG (some ⟨500, "T2", "", true⟩) none none none)
      (stateG (some "M") (some "T1")) "M" "T1" ⟨500, "T2", "", true⟩
      rfl rfl rfl rfl (by decide)),
    (C1_token_refresh_amended.2.2.2.1
      (constEnvG (some ⟨500, "T2", "", true⟩) none none none)
      ((GoAuth.ListUsers (constEnvG (some ⟨500, "T2", "", true⟩) none none none)
          (stateG (some "M") (some "T1"))).state) "M" "T2"
      rfl rfl rfl)⟩

/-- C6 counterexample: the lenient `Login` called with the non-email
identifier `bob` sends a body whose keys are `api_key`, `email`,
`password` — the identifier travels under `email`, and no `username`
key occurs anywhere in the body, contradicting the claimed
email-parsing disambiguation for this variant. -/
theorem C6_counterexample :
    (GoAuth.Login (constEnvG (some ⟨200, "T", "", true⟩) none none none)
        (stateG none none) "bob" "pw").requests =
      [Avidbase.authRequest "https://dev-api.avidbase.com/"
        (marshalStringMap
          [("api_key", "key"), ("email", "bob"), ("password", "pw")])] ∧
    strContains (marshalStringMap
      [("api_key", "key"), ("email", "bob"), ("password", "pw")])
      "username" = false ∧
    strContains (marshalStringMap
      [("api_key", "key"), ("email", "bob"), ("password", "pw")])
      "\"email\":\"bob\"" = true := by
  refine ⟨rfl, by decide, by decide⟩

/-- C6 (amended): in the strict variant, `Login` builds its JSON body
from `loginValues`, which places the identifier under `email` exactly
when `mail.ParseAddress` accepts it and under `username` otherwise
(email parsing is the sole disambiguator); the lenient variant's
`Login` instead always sends the identifier under `email`, alongside
`api_key` and `password`. -/
theorem C6_login_key_disambiguation_amended :
    (∀ env : Avidbase.Env, ∀ s : Avidbase.State, ∀ acct ident pw : String,
      s.accountId = some acct → ident ≠ "" → pw ≠ "" →
      (Avidbase.Login env s ident pw).requests =
        [Avidbase.authRequest s.baseUrl
          (marshalStringMap (Avidbase.loginValues env acct ident pw))]) ∧
    (∀ env : Avidbase.Env, ∀ acct ident pw : String,
      env.parseAddressOk ident = true →
      Avidbase.loginValues env acct ident pw =
        [("account_uuid", acct), ("email", ident), ("password", pw)]) ∧
    (∀ env : Avidbase.Env, ∀ acct ident pw : String,
      env.parseAddressOk ident = false →
      Avidbase.loginValues env acct ident pw =
        [("account_uuid", acct), ("password", pw), ("username", ident)]) ∧
    (∀ env : GoAuth.Env, ∀ s : GoAuth.State, ∀ key ident pw : String,
      s.apiKey = some key → ident ≠ "" → pw ≠ "" →
      (GoAuth.Login env s ident pw).requests =
        [Avidbase.authRequest s.baseUrl (marshalStringMap
          [("api_key", key), ("email", ident), ("password", pw)])]) := by
  refine ⟨?_, ?_, ?_, ?_⟩
  · intro env s acct ident pw ha hi hp
    unfold Avidbase.Login
    rw [ha]
    simp only [hi, hp, or_self, if_false]
    repeat' (first | rfl | split)
  · intro env acct ident pw h
    simp [Avidbase.loginValues, h]
  · intro env acct ident pw h
    simp [Avidbase.loginValues, h]
  · intro env s key ident pw hk hi hp
    unfold GoAuth.Login
    rw [hk]
    simp only [hi, hp, or_self, if_false]
    repeat' (first | rfl | split)

/-- C6 witness: strict `Login` with the valid address
`user@example.com` sends the identifier under `email`; with `bob`
(no `@`) it would go under `username`. -/
theorem C6_login_key_disambiguation_amended_witness :
    ("user@example.com" : String) ≠ "" ∧
    (Avidbase.Login (constEnvA none none none none) (stateA none)
        "user@example.com" "pw").requests =
      [Avidbase.authRequest "https://api.avidbase.com/"
        (marshalStringMap (Avidbase.loginValues (constEnvA none none none none)
          "acct" "user@example.com" "pw"))] ∧
    Avidbase.loginValues (constEnvA none none none none)
        "acct" "user@example.com" "pw" =
      [("account_uuid", "acct"), ("email", "user@example.com"),
        ("password", "pw")] ∧
    Avidbase.loginValues (constEnvA none none none none) "acct" "bob" "pw" =
      [("account_uuid", "acct"), ("password", "pw"), ("username", "bob")] :=
  ⟨by decide,
    C6_login_key_disambiguation_amended.1 (constEnvA none none none none)
      (stateA none) "acct" "user@example.com" "pw" rfl (by decide) (by decide),
    C6_login_key_disambiguation_amended.2.1 (constEnvA none none none none)
      "acct" "user@example.com" "pw" (by decide),
    C6_login_key_disambiguation_amended.2.2.1 (constEnvA none none none none)
      "acct" "bob" "pw" (by decide)⟩

/-- C7: evaluation at the failing input.  In the lenient variant, with
machine token `machine-token` held (just validated) and user token
`user-token` stored, `ListUsers` sends `user-token` — not the machine
token its own documentation says it uses; the strict variant sends the
machine token. -/
theorem C7_wrong_token_sent :
    (stateG (some "machine-token") (some "user-token")).machineAccessToken =
      some "machine-token" ∧
    (GoAuth.ListUsers (constEnvG (some ⟨200, "", "", true⟩) none none none)
        (stateG (some "machine-token") (some "user-token"))).requests =
      [⟨"GET", "https://dev-api.avidbase.com/v1/user",
        some "user-token", none⟩] ∧
    some "user-token" ≠ some "machine-token" ∧
    (Avidbase.ListUsers (constEnvA (some ⟨200, "", "", true⟩) none none none)
        (stateA (some "machine-token"))).requests =
      [⟨"GET", "https://api.avidbase.com/v1/user",
        some "machine-token", none⟩] := by
  refine ⟨rfl, rfl, by decide, rfl⟩

/-- C8 counterexample: the lenient `Login` with a status-200 response
whose `Access-Token` header is empty still returns the decoded,
populated output and stores no token — success without a header token,
contradicting the claimed success condition. -/
theorem C8_counterexample :
    (⟨200, "", "body", true⟩ : HttpResponse).accessTokenHeader = "" ∧
    (GoAuth.Login (constEnvG (some ⟨200, "", "body", true⟩)
          (some ⟨⟨"u1", "", "", "", 0, ""⟩, []⟩) none none)
        (stateG none none) "e" "p").output =
      ⟨⟨"u1", "", "", "", 0, ""⟩, []⟩ ∧
    (⟨⟨"u1", "", "", "", 0, ""⟩, []⟩ : GoAuth.AuthOutput) ≠
      GoAuth.zeroAuthOutput ∧
    (GoAuth.Login (constEnvG (some ⟨200, "", "body", true⟩)
          (some ⟨⟨"u1", "", "", "", 0, ""⟩, []⟩) none none)
        (stateG none none) "e" "p").state.userAccessToken = none := by
  refine ⟨rfl, rfl, by decide, rfl⟩

/-- C8 (amended): the strict `Login` succeeds (nil error) exactly when
the status is OK, the `Access-Token` response header is non-empty, and
the body decodes; on success it returns the decoded identity plus
permission map and hands the header token back to the caller without
storing it (the state is unchanged).  The lenient `Login` stores any
non-empty header token regardless of status, keeps the state unchanged
when the header is empty, and returns the decoded output exactly when
the status is OK — header-token presence is not required for its
output. -/
theorem C8_login_success_amended :
    (∀ env : Avidbase.Env, ∀ s : Avidbase.State, ∀ acct e p : String,
      s.accountId = some acct → e ≠ "" → p ≠ "" →
      ((Avidbase.Login env s e p).err = none ↔
        ∃ resp out,
          env.http (Avidbase.authRequest s.baseUrl
            (marshalStringMap (Avidbase.loginValues env acct e p))) =
            some resp ∧
          resp.statusCode = 200 ∧ resp.accessTokenHeader ≠ "" ∧
          env.decodeAuthOutput resp.body = some out)) ∧
    (∀ env : Avidbase.Env, ∀ s : Avidbase.State, ∀ acct e p : String,
      ∀ resp : HttpResponse, ∀ out : Avidbase.AuthOutput,
      s.accountId = some acct → e ≠ "" → p ≠ "" →
      env.http (Avidbase.authRequest s.baseUrl
        (marshalStringMap (Avidbase.loginValues env acct e p))) = some resp →
      resp.statusCode = 200 → resp.accessTokenHeader ≠ "" →
      env.decodeAuthOutput resp.body = some out →
      Avidbase.Login env s e p =
        ⟨resp.accessTokenHeader, out, none, s,
          [Avidbase.authRequest s.baseUrl
            (marshalStringMap (Avidbase.loginValues env acct e p))]⟩) ∧
    (∀ env : GoAuth.Env, ∀ s : GoAuth.State, ∀ key e p : String,
      ∀ resp : HttpResponse,
      s.apiKey = some key → e ≠ "" → p ≠ "" →
      env.http (Avidbase.authRequest s.baseUrl (marshalStringMap
        [("api_key", key), ("email", e), ("password", p)])) = some resp →
      (resp.accessTokenHeader ≠ "" →
        (GoAuth.Login env s e p).state.userAccessToken =
          some resp.accessTokenHeader) ∧
      (resp.accessTokenHeader = "" → (GoAuth.Login env s e p).state = s) ∧
      (resp.statusCode = 200 →
        (GoAuth.Login env s e p).output =
          (env.decodeAuthOutput resp.body).getD GoAuth.zeroAuthOutput) ∧
      (resp.statusCode ≠ 200 →
        (GoAuth.Login env s e p).output = GoAuth.zeroAuthOutput)) := by
  refine ⟨?_, ?_, ?_⟩
  · intro env s acct e p ha he hp
    unfold Avidbase.Login
    rw [ha]
    simp only [he, hp, or_self, if_false]
    cases hr : env.http (Avidbase.authRequest s.baseUrl
        (marshalStringMap (Avidbase.loginValues env acct e p))) with
    | none => simp [hr]
    | some resp =>
      by_cases hst : resp.statusCode = 200
      · by_cases hh : resp.accessTokenHeader = ""
        · simp [hr, hst, hh]
        · cases hd : env.decodeAuthOutput resp.body with
          | none => simp [hr, hst, hh, hd]
          | some out => simp [hr, hst, hh, hd]
      · simp [hr, hst]
  · intro env s acct e p resp out ha he hp hr hst hh hd
    unfold Avidbase.Login
    rw [ha]
    simp only [he, hp, or_self, if_false]
    rw [hr]
    simp [hst, hh, hd]
  · intro env s key e p resp hk he hp hr
    unfold GoAuth.Login
    rw [hk]
    simp only [he, hp, or_self, if_false]
    rw [hr]
    refine ⟨fun hh => by simp [hh], fun hh => by simp [hh],
      fun hst => by simp [hst], fun hst => by simp [hst]⟩

/-- C8 witness: a concrete strict login against a 200 response with
header token `TK` and a decodable body; the call returns the token and
the decoded output with no error and an unchanged state. -/
theorem C8_login_success_amended_witness :
    (stateA none).accountId = some "acct" ∧
    Avidbase.Login
        (constEnvA (some ⟨200, "TK", "body", true⟩)
          (some ⟨⟨"u1", "", "", "", "", "", []⟩, [("admin", true)]⟩)
          none none)
        (stateA none) "user@example.com" "pw" =
      ⟨"TK", ⟨⟨"u1", "", "", "", "", "", []⟩, [("admin", true)]⟩, none,
        stateA none,
        [Avidbase.authRequest "https://api.avidbase.com/"
          (marshalStringMap (Avidbase.loginValues
            (constEnvA (some ⟨200, "TK", "body", true⟩)
              (some ⟨⟨"u1", "", "", "", "", "", []⟩, [("admin", true)]⟩)
              none none)
            "acct" "user@example.com" "pw"))]⟩ :=
  ⟨rfl,
    C8_login_success_amended.2.1
      (constEnvA (some ⟨200, "TK", "body", true⟩)
        (some ⟨⟨"u1", "", "", "", "", "", []⟩, [("admin", true)]⟩)
        none none)
      (stateA none) "acct" "user@example.com" "pw"
      ⟨200, "TK", "body", true⟩
      ⟨⟨"u1", "", "", "", "", "", []⟩, [("admin", true)]⟩
      rfl (by decide) (by decide) rfl rfl (by decide) rfl⟩

/-- C9: lenient `ListUsers` never returns an absent collection — when
the user-token dereference does not panic, the result is always a
list: the decoded response array itself (same elements, same order) on
a 200 with a decodable body, and the empty list on every failure path
(decode failure, non-OK status, transport error, request-construction
failure, token-acquisition failure); the strict variant's pre-request
token failure likewise returns the empty, non-null slice together with
its error. -/
theorem C9_list_users_shape :
    (∀ env : GoAuth.Env, ∀ s : GoAuth.State, ∀ ut : String,
      s.userAccessToken = some ut → (GoAuth.ListUsers env s).ret ≠ none) ∧
    (∀ env : GoAuth.Env, ∀ s : GoAuth.State, ∀ mt ut : String,
      ∀ resp : HttpResponse, ∀ l : List GoAuth.OutputUser,
      s.machineAccessToken = some mt → s.userAccessToken = some ut →
      env.newRequestOk "GET" (s.baseUrl ++ "v1/user") = true →
      env.http ⟨"GET", s.baseUrl ++ "v1/user", some ut, none⟩ = some resp →
      resp.statusCode = 200 → env.decodeOutputUserList resp.body = some l →
      (GoAuth.ListUsers env s).ret = some l) ∧
    (∀ env : GoAuth.Env, ∀ s : GoAuth.State, ∀ mt ut : String,
      ∀ resp : HttpResponse,
      s.machineAccessToken = some mt → s.userAccessToken = some ut →
      env.newRequestOk "GET" (s.baseUrl ++ "v1/user") = true →
      env.http ⟨"GET", s.baseUrl ++ "v1/user", some ut, none⟩ = some resp →
      resp.statusCode = 200 → env.decodeOutputUserList resp.body = none →
      (GoAuth.ListUsers env s).ret = some []) ∧
    (∀ env : GoAuth.Env, ∀ s : GoAuth.State, ∀ mt ut : String,
      ∀ resp : HttpResponse,
      s.machineAccessToken = some mt → s.userAccessToken = some ut →
      env.newRequestOk "GET" (s.baseUrl ++ "v1/user") = true →
      env.http ⟨"GET", s.baseUrl ++ "v1/user", some ut, none⟩ = some resp →
      resp.statusCode ≠ 200 → (GoAuth.ListUsers env s).ret = some []) ∧
    (∀ env : GoAuth.Env, ∀ s : GoAuth.State, ∀ mt ut : String,
      s.machineAccessToken = some mt → s.userAccessToken = some ut →
      env.newRequestOk "GET" (s.baseUrl ++ "v1/user") = true →
      env.http ⟨"GET", s.baseUrl ++ "v1/user", some ut, none⟩ = none →
      (GoAuth.ListUsers env s).ret = some []) ∧
    (∀ env : GoAuth.Env, ∀ s : GoAuth.State, ∀ mt : String,
      s.machineAccessToken = some mt →
      env.newRequestOk "GET" (s.baseUrl ++ "v1/user") = false →
      (GoAuth.ListUsers env s).ret = some [] ∧
      (GoAuth.ListUsers env s).requests = []) ∧
    (∀ env : GoAuth.Env, ∀ s : GoAuth.State,
      s.machineAccessToken = none →
      (GoAuth.generateMachineAccessToken env s).ok = false →
      (GoAuth.ListUsers env s).ret = some []) ∧
    (∀ env : Avidbase.Env, ∀ s : Avidbase.State,
      s.machineAccessToken = none →
      (Avidbase.generateMachineAccessToken env s).ok = false →
      (Avidbase.ListUsers env s).ret = some ([],
        some "invalid api key or unable to generate machine access token")) := by
  refine ⟨?_, ?_, ?_, ?_, ?_, ?_, ?_, ?_⟩
  · intro env s ut hu
    unfold GoAuth.ListUsers
    by_cases hok : (GoAuth.isValidMachineAccessToken env s).ok = true
    · have huser : (GoAuth.isValidMachineAccessToken env s).state.userAccessToken
          = some ut := by rw [goIsValid_userToken env s, hu]
      simp only [hok, if_true, huser]
      by_cases hn : env.newRequestOk "GET"
          ((GoAuth.isValidMachineAccessToken env s).state.baseUrl ++ "v1/user")
          = true
      · simp only [hn, if_true]
        cases hr : env.http ⟨"GET",
            (GoAuth.isValidMachineAccessToken env s).state.baseUrl ++ "v1/user",
            some ut, none⟩ with
        | none => simp [hr]
        | some resp =>
          by_cases hst : resp.statusCode = 200 <;> simp [hr, hst]
      · simp at hn
        simp [hn]
    · simp only [Bool.not_eq_true] at hok
      simp [hok]
  · intro env s mt ut resp l hm hu hn hr hst hd
    unfold GoAuth.ListUsers
    rw [goIsValid_of_some env s mt hm]
    simp only [hn, if_true, hu]
    rw [hr]
    simp [hst, hd]
  · intro env s mt ut resp hm hu hn hr hst hd
    unfold GoAuth.ListUsers
    rw [goIsValid_of_some env s mt hm]
    simp only [hn, if_true, hu]
    rw [hr]
    simp [hst, hd]
  · intro env s mt ut resp hm hu hn hr hst
    unfold GoAuth.ListUsers
    rw [goIsValid_of_some env s mt hm]
    simp only [hn, if_true, hu]
    rw [hr]
    simp [hst]
  · intro env s mt ut hm hu hn hr
    unfold GoAuth.ListUsers
    rw [goIsValid_of_some env s mt hm]
    simp only [hn, if_true, hu]
    rw [hr]
  · intro env s mt hm hn
    unfold GoAuth.ListUsers
    rw [goIsValid_of_some env s mt hm]
    simp [hn]
  · intro env s h0 hg
    unfold GoAuth.ListUsers
    rw [goIsValid_of_none_fail env s h0 hg]; rfl
  · intro env s h0 hg
    unfold Avidbase.ListUsers
    rw [avidIsValid_of_none_fail env s h0 hg]; rfl

/-- C9 witness: a 200 response decoding to a two-element list; the
result is exactly that list (same length, same order). -/
theorem C9_list_users_shape_witness :
    (stateG (some "M") (some "U")).userAccessToken = some "U" ∧
    (GoAuth.ListUsers
        (constEnvG (some ⟨200, "", "[...]", true⟩) none none
          (some [⟨"a", "", "", "", 0, ""⟩, ⟨"b", "", "", "", 0, ""⟩]))
        (stateG (some "M") (some "U"))).ret =
      some [⟨"a", "", "", "", 0, ""⟩, ⟨"b", "", "", "", 0, ""⟩] :=
  ⟨rfl,
    C9_list_users_shape.2.1
      (constEnvG (some ⟨200, "", "[...]", true⟩) none none
        (some [⟨"a", "", "", "", 0, ""⟩, ⟨"b", "", "", "", 0, ""⟩]))
      (stateG (some "M") (some "U")) "M" "U" ⟨200, "", "[...]", true⟩
      [⟨"a", "", "", "", 0, ""⟩, ⟨"b", "", "", "", 0, ""⟩]
      rfl rfl rfl rfl rfl rfl⟩
